import Mathlib

/-!
Verification development for the `avdl-rs` repository: a shallow embedding of
the AVDL parser (`crates/avdl-parser/src/parser.rs`), the schema model and its
JSON serializer (`src/schema.rs`), together with theorems about the parser's
type grammar, its type-directed default-value dispatch, union validation,
canonical-form equality and the record round trip.

The nom combinator pipeline is embedded as functions `List Char → PRes α`:
`PRes.ok rest v` mirrors nom's `Ok((rest, v))`, `PRes.err` mirrors a
recoverable `Err`, and `PRes.panic` mirrors a Rust process abort
(`todo!` / `unimplemented!` / `expect`), which no combinator recovers from.
-/

namespace AvdlRs

/-- Result of running an embedded nom parser: success with remaining input,
a recoverable parse error, or a process abort (Rust panic). -/
inductive PRes (α : Type) where
  | ok : List Char → α → PRes α
  | err : PRes α
  | panic : PRes α
  deriving Repr, DecidableEq

/-- An embedded nom parser over character lists. -/
abbrev P (α : Type) : Type := List Char → PRes α

/-- nom `map`: apply a function to the parsed value. -/
def pmap {α β : Type} (p : P α) (f : α → β) : P β := fun input =>
  match p input with
  | .ok rest v => .ok rest (f v)
  | .err => .err
  | .panic => .panic

/-- nom `map_res`: apply a fallible conversion; `none` becomes a parse error. -/
def pmapRes {α β : Type} (p : P α) (f : α → Option β) : P β := fun input =>
  match p input with
  | .ok rest v =>
    match f v with
    | some w => .ok rest w
    | none => .err
  | .err => .err
  | .panic => .panic

/-- Sequencing of two embedded parsers (nom's tuple/pair structure). -/
def pseq {α β : Type} (p : P α) (q : P β) : P (α × β) := fun input =>
  match p input with
  | .ok rest v =>
    match q rest with
    | .ok rest2 w => .ok rest2 (v, w)
    | .err => .err
    | .panic => .panic
  | .err => .err
  | .panic => .panic

/-- Bind form of sequencing, used where a later parser depends on an earlier
value (the Rust code does this with `?`-style control flow). -/
def pbind {α β : Type} (p : P α) (f : α → P β) : P β := fun input =>
  match p input with
  | .ok rest v => f v rest
  | .err => .err
  | .panic => .panic

/-- nom `value`: run a parser and replace its output with a constant. -/
def pvalue {α β : Type} (v : β) (p : P α) : P β := pmap p (fun _ => v)

/-- nom `opt`: recoverable failure becomes `none` with no input consumed;
panics still propagate. -/
def popt {α : Type} (p : P α) : P (Option α) := fun input =>
  match p input with
  | .ok rest v => .ok rest (some v)
  | .err => .ok input none
  | .panic => .panic

/-- nom `alt` for two alternatives: try the second only on recoverable
failure of the first. -/
def palt {α : Type} (p q : P α) : P α := fun input =>
  match p input with
  | .ok rest v => .ok rest v
  | .err => q input
  | .panic => .panic

/-- nom `preceded`. -/
def ppreceded {α β : Type} (p : P α) (q : P β) : P β :=
  pmap (pseq p q) (fun x => x.2)

/-- nom `terminated`. -/
def pterminated {α β : Type} (p : P α) (q : P β) : P α :=
  pmap (pseq p q) (fun x => x.1)

/-- nom `delimited`. -/
def pdelimited {α β γ : Type} (p : P α) (q : P β) (r : P γ) : P β :=
  pterminated (ppreceded p q) r

/-- nom `tag` on an explicit character list. -/
def tagL : List Char → P Unit
  | [], input => .ok input ()
  | c :: cs, [] => (fun _ => .err) (c :: cs)
  | c :: cs, x :: xs => if x = c then tagL cs xs else .err

/-- nom `tag` on a string literal. -/
def tagS (s : String) : P Unit := tagL s.data

/-- nom `take_while`: longest (possibly empty) prefix satisfying `f`. -/
def takeWhileP (f : Char → Bool) : P (List Char)
  | [] => .ok [] []
  | c :: cs =>
    if f c then
      match takeWhileP f cs with
      | .ok rest v => .ok rest (c :: v)
      | r => r
    else .ok (c :: cs) []

/-- nom `take_while1`: like `take_while` but the prefix must be nonempty. -/
def takeWhile1P (f : Char → Bool) : P (List Char) := fun input =>
  match input with
  | [] => .err
  | c :: _ => if f c then takeWhileP f input else .err

/-- nom `take_till(f)` as used in `parse_comment`: consume until `f` holds. -/
def takeTillP (f : Char → Bool) : P (List Char) :=
  takeWhileP (fun c => !f c)

/-- nom `take_until(t)`: consume up to (excluding) the first occurrence of
the tag `t`; fail when `t` never occurs. -/
def takeUntilL (t : List Char) : P (List Char)
  | [] => if t.isPrefixOf [] then .ok [] [] else .err
  | c :: cs =>
    if t.isPrefixOf (c :: cs) then .ok (c :: cs) []
    else
      match takeUntilL t cs with
      | .ok rest v => .ok rest (c :: v)
      | r => r

/-- nom `take_until` on a string literal. -/
def takeUntilS (s : String) : P (List Char) := takeUntilL s.data

/-- Rust `char::is_whitespace` restricted to the characters AVDL sources use
(ASCII whitespace). -/
def isWS (c : Char) : Bool := c = ' ' || c = '\t' || c = '\n' || c = '\r'

/-- nom `multispace0`. -/
def multispace0 : P Unit := pvalue () (takeWhileP isWS)

/-- nom `space0` (spaces and tabs only). -/
def space0 : P Unit := pvalue () (takeWhileP (fun c => c = ' ' || c = '\t'))

/-- `space_delimited` from `parser.rs`: skip whitespace around a parser. -/
def spaceDelimited {α : Type} (p : P α) : P α :=
  pdelimited multispace0 p multispace0

/-- `parse_comment` from `parser.rs`: `/* ... */` or `// ...\n`. -/
def parseComment : P (List Char) :=
  palt (pdelimited (tagS "/*") (takeUntilS "*/") (tagS "*/"))
       (pdelimited (tagS "//") (takeTillP (fun c => c = '\n')) (tagS "\n"))

/-- `comment_delimited` from `parser.rs`: optional comments (and whitespace)
around a parser. -/
def commentDelimited {α : Type} (p : P α) : P α :=
  pdelimited (spaceDelimited (popt parseComment)) p
             (spaceDelimited (popt parseComment))

/-- One step of nom `separated_list1`'s loop, with explicit fuel:
try the separator, then an element; stop (returning what was accumulated)
as soon as either fails recoverably. -/
def sepLoop {α β : Type} (sep : P α) (p : P β) :
    Nat → List Char → List β → PRes (List β)
  | 0, _, _ => .err
  | Nat.succ fuel, input, acc =>
    match sep input with
    | .err => .ok input acc
    | .panic => .panic
    | .ok rest1 _ =>
      if rest1 = input then .err
      else
        match p rest1 with
        | .err => .ok input acc
        | .panic => .panic
        | .ok rest2 v => sepLoop sep p fuel rest2 (acc ++ [v])

/-- nom `separated_list1`. -/
def separatedList1 {α β : Type} (sep : P α) (p : P β) : P (List β) :=
  fun input =>
    match p input with
    | .err => .err
    | .panic => .panic
    | .ok rest v => sepLoop sep p (input.length + 1) rest [v]

/-- nom `separated_list0`. -/
def separatedList0 {α β : Type} (sep : P α) (p : P β) : P (List β) :=
  fun input =>
    match p input with
    | .err => .ok input []
    | .panic => .panic
    | .ok rest v => sepLoop sep p (input.length + 1) rest [v]

/-- One step of nom `many1`'s loop, with explicit fuel. -/
def manyLoop {α : Type} (p : P α) : Nat → List Char → List α → PRes (List α)
  | 0, _, _ => .err
  | Nat.succ fuel, input, acc =>
    match p input with
    | .err => .ok input acc
    | .panic => .panic
    | .ok rest v =>
      if rest = input then .err
      else manyLoop p fuel rest (acc ++ [v])

/-- nom `many1`. -/
def many1 {α : Type} (p : P α) : P (List α) := fun input =>
  match p input with
  | .err => .err
  | .panic => .panic
  | .ok rest v => manyLoop p (input.length + 1) rest [v]

/-- Modelled from the spec: `nom_permutation::permutation_opt` over two
parsers (the crate is an external collaborator; §4.1 "annotations may appear
in any order relative to each other before a declared name", each optional).
Try the first parser then optionally the second; if the first fails, try the
second then optionally the first; both missing is allowed. -/
def permutationOpt2 {α β : Type} (p : P α) (q : P β) :
    P (Option α × Option β) := fun input =>
  match p input with
  | .panic => .panic
  | .ok rest1 a =>
    (match q rest1 with
     | .panic => .panic
     | .ok rest2 b => .ok rest2 (some a, some b)
     | .err => .ok rest1 (some a, none))
  | .err =>
    match q input with
    | .panic => .panic
    | .ok rest1 b =>
      (match p rest1 with
       | .panic => .panic
       | .ok rest2 a => .ok rest2 (some a, some b)
       | .err => .ok rest1 (none, some b))
    | .err => .ok input (none, none)

end AvdlRs

namespace AvdlRs

/-! ## Numeric model

Rust's `str::parse::<f32>`/`parse::<f64>` perform correctly rounded
(round-to-nearest, ties-to-even) decimal-to-binary conversion, with overflow
producing an infinity rather than an error.  Finite nonnegative binary floats
are represented exactly as dyadic rationals `m * 2^e`; `none` stands for a
non-finite result (the literal grammar admits no sign, so only `+inf`). -/

/-- A nonnegative dyadic rational `m * 2^e` (exact value of a finite float). -/
structure Dy where
  m : Nat
  e : Int
  deriving Repr, DecidableEq

/-- The rational value `m * 2^e` of a dyadic. -/
def Dy.val (d : Dy) : ℚ := (d.m : ℚ) * (2 : ℚ) ^ d.e

/-- Decide `m * 10^p ≥ n * 2^k` using only natural arithmetic. -/
def geMag (m : Nat) (p : Int) (n : Nat) (k : Int) : Bool :=
  m * 10 ^ (max p 0).toNat * 2 ^ (max (-k) 0).toNat ≥
    n * 2 ^ (max k 0).toNat * 10 ^ (max (-p) 0).toNat

/-- Largest exponent `e` in `[lo, lo + fuel]` with `2^e ≤ m * 10^p`
(assuming one exists at `lo`): scans from the top down. -/
def findExpAux (m : Nat) (p : Int) (lo : Int) : Nat → Int
  | 0 => lo
  | Nat.succ n => if geMag m p 1 (lo + n + 1) then lo + n + 1 else findExpAux m p lo n

/-- `⌊log2 (m * 10^p)⌋` searched over the exponent range `[lo, hi]`. -/
def findExp (m : Nat) (p : Int) (lo hi : Int) : Int :=
  findExpAux m p lo (hi - lo).toNat

/-- Round `m * 10^p` to the binary grid of spacing `2^u`
(round to nearest, ties to even), returning the dyadic result. -/
def roundAtUlp (m : Nat) (p : Int) (u : Int) : Dy :=
  let A := m * 10 ^ (max p 0).toNat * 2 ^ (max (-u) 0).toNat
  let B := 10 ^ (max (-p) 0).toNat * 2 ^ (max u 0).toNat
  let q := A / B
  let r := A % B
  let rounded :=
    if B < 2 * r then q + 1
    else if 2 * r < B then q
    else if q % 2 = 0 then q else q + 1
  ⟨rounded, u⟩

/-- Correctly rounded conversion of `m * 10^p` to a binary format with
precision `prec` bits, minimum normal exponent `emin`, maximum exponent
`emax`, and overflow threshold `cutM * 2^cutE` (the midpoint above the
largest finite value); `none` is an infinity. -/
def roundToBinary (prec : Nat) (emin emax : Int) (cutM : Nat) (cutE : Int)
    (m : Nat) (p : Int) : Option Dy :=
  if m = 0 then some ⟨0, 0⟩
  else if geMag m p cutM cutE then none
  else if geMag m p 1 emin then
    some (roundAtUlp m p (findExp m p emin emax - ((prec : Int) - 1)))
  else some (roundAtUlp m p (emin - ((prec : Int) - 1)))

/-- IEEE binary32 rounding: 24-bit precision, exponents `[-126, 127]`,
overflow at `(2^25 - 1) * 2^103 = 2^128 - 2^103`. -/
def roundF32 (m : Nat) (p : Int) : Option Dy :=
  roundToBinary 24 (-126) 127 (2 ^ 25 - 1) 103 m p

/-- IEEE binary64 rounding: 53-bit precision, exponents `[-1022, 1023]`,
overflow at `(2^54 - 1) * 2^970 = 2^1024 - 2^970`. -/
def roundF64 (m : Nat) (p : Int) : Option Dy :=
  roundToBinary 53 (-1022) 1023 (2 ^ 54 - 1) 970 m p

/-- Numeric value of a list of decimal digits. -/
def digitsVal (l : List Char) : Nat :=
  l.foldl (fun a c => a * 10 + (c.toNat - 48)) 0

/-- All characters are decimal digits. -/
def allDigits (l : List Char) : Bool := l.all Char.isDigit

/-- The mantissa part of a float literal: `digits ['.' digits?]?` or
`'.' digits`, yielding the integer formed by all digits together with the
number of fractional digits. -/
def parseMantissa (l : List Char) : Option (Nat × Nat) :=
  match l.splitOn '.' with
  | [ds] => if ds ≠ [] && allDigits ds then some (digitsVal ds, 0) else none
  | [ip, fp] =>
    if (ip ≠ [] || fp ≠ []) && allDigits ip && allDigits fp then
      some (digitsVal (ip ++ fp), fp.length)
    else none
  | _ => none

/-- The exact decimal magnitude `m * 10^p` denoted by a float literal drawn
from the characters `{digit, '.', 'e'}`, following Rust's float-literal
grammar (no sign or `inf`/`NaN` forms are possible from this character set);
`none` when the literal is malformed (e.g. `"1e"`, `"1.2.3"`, `"e3"`). -/
def parseFloatMag (l : List Char) : Option (Nat × Int) :=
  match l.splitOn 'e' with
  | [man] => (parseMantissa man).map (fun (m, f) => (m, -(f : Int)))
  | [man, ex] =>
    if ex ≠ [] && allDigits ex then
      (parseMantissa man).map (fun (m, f) => (m, (digitsVal ex : Int) - (f : Int)))
    else none
  | _ => none

/-- Rust `str::parse::<f32>` on a literal from `{digit, '.', 'e'}`:
syntax failure is `none`; otherwise the correctly rounded binary32 value,
`some none` being an overflow to infinity. -/
def rustParseF32 (l : List Char) : Option (Option Dy) :=
  (parseFloatMag l).map (fun (m, p) => roundF32 m p)

/-- Rust `str::parse::<f64>` on a literal from `{digit, '.', 'e'}`. -/
def rustParseF64 (l : List Char) : Option (Option Dy) :=
  (parseFloatMag l).map (fun (m, p) => roundF64 m p)

/-- Rust `str::parse::<i32>` on a digit string: fails on 32-bit overflow. -/
def rustParseI32 (l : List Char) : Option Int :=
  if digitsVal l ≤ 2147483647 then some (digitsVal l) else none

/-- Rust `str::parse::<i64>` on a digit string: fails on 64-bit overflow. -/
def rustParseI64 (l : List Char) : Option Int :=
  if digitsVal l ≤ 9223372036854775807 then some (digitsVal l) else none

/-- Rust `str::parse::<usize>` on a digit string (64-bit platform). -/
def rustParseUsize (l : List Char) : Option Nat :=
  if digitsVal l ≤ 18446744073709551615 then some (digitsVal l) else none

/-! ## Data model (`src/schema.rs`)

The schema AST.  `lookup`, `attributes` and `custom_attributes` are omitted:
every construction site in the parser passes the empty map and neither the
serializer's visible output nor any operation the claims mention reads them.
`UnionSchema`'s derived `variant_index` is likewise omitted; its validating
constructor `UnionSchema::new` is embedded as `unionSchemaNew` below. -/

/-- `apache_avro::schema::Name`: a bare name plus optional namespace. -/
structure NameT where
  name : String
  ns : Option String
  deriving Repr, DecidableEq

/-- `RecordFieldOrder`. -/
inductive RFOrder where
  | ascending | descending | ignore
  deriving Repr, DecidableEq

/-- serde_json numbers: an integer (`i64`/`u64`) or a finite double
(`Number::from_f64`); the two kinds are distinct, as in serde_json. -/
inductive JNum where
  | int (i : Int)
  | fl (d : Dy)
  deriving Repr, DecidableEq

/-- A JSON document; object entries keep their insertion order, as the
serializer emits them. -/
inductive Json where
  | null
  | bool (b : Bool)
  | num (n : JNum)
  | str (s : String)
  | arr (xs : List Json)
  | obj (fields : List (String × Json))

mutual
/-- The schema AST of `src/schema.rs` (the `Union` variant carries the
validated variant list of its `UnionSchema`). -/
inductive Schema where
  | null | boolean | int | long | float | double | bytes | string
  | array (items : Schema)
  | mapS (values : Schema)
  | union (variants : List Schema)
  | record (name : NameT) (aliases : Option (List String)) (doc : Option String)
           (fields : List RecordField)
  | enum (name : NameT) (aliases : Option (List String)) (doc : Option String)
         (symbols : List String)
  | fixed (name : NameT) (aliases : Option (List String)) (doc : Option String)
          (size : Nat)
  | decimal (precision : Nat) (scale : Nat) (inner : Schema)
  | uuid | date | timeMillis | timeMicros | timestampMillis | timestampMicros
  | duration
  | ref (name : NameT)

/-- A record field (`RecordField` in `src/schema.rs`). -/
inductive RecordField where
  | mk (name : String) (doc : Option String) (default : Option Json)
       (schema : Schema) (order : RFOrder) (aliases : Option (List String))
       (position : Nat)
end

/-- Field accessor: name. -/
def RecordField.name : RecordField → String
  | .mk n _ _ _ _ _ _ => n

/-- Field accessor: default value. -/
def RecordField.default : RecordField → Option Json
  | .mk _ _ d _ _ _ _ => d

/-- Field accessor: schema. -/
def RecordField.schema : RecordField → Schema
  | .mk _ _ _ s _ _ _ => s

/-- `SchemaKind`: the discriminant of `Schema`. -/
inductive SchemaKind where
  | null | boolean | int | long | float | double | bytes | string
  | array | mapK | union | record | enum | fixed | decimal
  | uuid | date | timeMillis | timeMicros | timestampMillis | timestampMicros
  | duration | ref
  deriving Repr, DecidableEq

/-- The kind (discriminant) of a schema node. -/
def Schema.kind : Schema → SchemaKind
  | .null => .null | .boolean => .boolean | .int => .int | .long => .long
  | .float => .float | .double => .double | .bytes => .bytes
  | .string => .string | .array _ => .array | .mapS _ => .mapK
  | .union _ => .union | .record _ _ _ _ => .record | .enum _ _ _ _ => .enum
  | .fixed _ _ _ _ => .fixed | .decimal _ _ _ => .decimal | .uuid => .uuid
  | .date => .date | .timeMillis => .timeMillis | .timeMicros => .timeMicros
  | .timestampMillis => .timestampMillis
  | .timestampMicros => .timestampMicros
  | .duration => .duration | .ref _ => .ref

/-- Modelled from the spec: `SchemaKind::is_named` of the external
`apache_avro` collaborator — §3 treats Record/Enum/Fixed as the named kinds
("no two unnamed (non-Record/Enum/Fixed) variants may share the same
type-kind"). -/
def SchemaKind.isNamed : SchemaKind → Bool
  | .record => true | .enum => true | .fixed => true | _ => false

/-- The two error cases `UnionSchema::new` can produce. -/
inductive UnionErr where
  | getNestedUnion
  | getUnionDuplicate
  deriving Repr, DecidableEq

/-- The validation loop of `UnionSchema::new`: walk the variants, rejecting
any direct union member, and recording each unnamed kind to reject a
repeated one (named kinds are never recorded, due to `&&` short-circuit). -/
def unionNewLoop : List Schema → List SchemaKind → Except UnionErr Unit
  | [], _ => .ok ()
  | s :: rest, seen =>
    match s with
    | .union _ => .error .getNestedUnion
    | _ =>
      if s.kind.isNamed then unionNewLoop rest seen
      else if s.kind ∈ seen then .error .getUnionDuplicate
      else unionNewLoop rest (s.kind :: seen)

/-- `UnionSchema::new` (`src/schema.rs:280`): validate a variant list. -/
def unionSchemaNew (ss : List Schema) : Except UnionErr (List Schema) :=
  match unionNewLoop ss [] with
  | .ok _ => .ok ss
  | .error e => .error e

end AvdlRs

namespace AvdlRs

/-! ## Avro values and their JSON encoding -/

/-- `apache_avro::types::Value` restricted to the variants the default-value
dispatcher produces.  Float/double payloads are `Option Dy`: `none` is a
non-finite value. -/
inductive AvroValue where
  | nullV
  | booleanV (b : Bool)
  | intV (i : Int)
  | longV (i : Int)
  | floatV (f : Option Dy)
  | doubleV (f : Option Dy)
  | bytesV (bs : List Nat)
  | stringV (s : String)
  | uuidV (s : String)
  | arrayV (xs : List AvroValue)
  | mapV (kvs : List (String × AvroValue))

/-- Insert into an association list sorted by key, replacing an existing
entry (the behavior of inserting into a `serde_json` `BTreeMap`). -/
def sortedInsert (k : String) (v : Json) :
    List (String × Json) → List (String × Json)
  | [] => [(k, v)]
  | (k0, v0) :: rest =>
    if k = k0 then (k, v) :: rest
    else if k < k0 then (k, v) :: (k0, v0) :: rest
    else (k0, v0) :: sortedInsert k v rest

mutual
/-- Modelled from the spec: `TryFrom<Value> for serde_json::Value` of the
external `apache_avro` collaborator, per the "Encoded value" column of the
§4.4 dispatch table — null/bool/ints map to the same JSON value, a
non-finite float/double is rejected ("the JSON numeric representation
cannot hold non-finite values"), bytes become the array of byte values,
strings and uuids become JSON strings, arrays and maps recurse. -/
def avroToJson : AvroValue → Option Json
  | .nullV => some .null
  | .booleanV b => some (.bool b)
  | .intV i => some (.num (.int i))
  | .longV i => some (.num (.int i))
  | .floatV none => none
  | .floatV (some d) => some (.num (.fl d))
  | .doubleV none => none
  | .doubleV (some d) => some (.num (.fl d))
  | .bytesV bs => some (.arr (bs.map (fun b => .num (.int b))))
  | .stringV s => some (.str s)
  | .uuidV s => some (.str s)
  | .arrayV xs =>
    match avroListToJson xs with
    | some js => some (.arr js)
    | none => none
  | .mapV kvs =>
    match avroKvsToJson kvs with
    | some fields => some (.obj fields)
    | none => none

/-- Elementwise conversion of an Avro array's members. -/
def avroListToJson : List AvroValue → Option (List Json)
  | [] => some []
  | x :: xs =>
    match avroToJson x, avroListToJson xs with
    | some j, some js => some (j :: js)
    | _, _ => none

/-- Conversion of an Avro map's entries into a key-sorted JSON object
(later duplicates overwrite, as with a `BTreeMap`). -/
def avroKvsToJson : List (String × AvroValue) → Option (List (String × Json))
  | [] => some []
  | (k, v) :: rest =>
    match avroToJson v, avroKvsToJson rest with
    | some j, some fields => some (sortedInsert k j fields)
    | _, _ => none
end

/-! ## Lexical and annotation grammar (`parser.rs`) -/

/-- nom `digit1`. -/
def digit1 : P (List Char) := takeWhile1P Char.isDigit

/-- nom `alphanumeric1`. -/
def alphanumeric1 : P (List Char) := takeWhile1P Char.isAlphanum

/-- nom `char(c)`. -/
def charP (c : Char) : P Unit := tagL [c]

/-- The identifier character class `[A-Za-z0-9_]` (`char::is_alphanumeric`
or underscore; the sources are ASCII). -/
def isIdentChar (c : Char) : Bool := c.isAlphanum || c = '_'

/-- `parse_var_name`: `take_while` over the identifier class, verified to
start with a letter or underscore. -/
def parseVarName : P (List Char) := fun input =>
  match takeWhileP isIdentChar input with
  | .ok rest v =>
    if (v.take 1).any (fun c => c.isAlpha || c = '_') then .ok rest v else .err
  | .err => .err
  | .panic => .panic

/-- Modelled from the spec: the delegated quoted-string scanner
(`crate::string_parser::parse_string`, a repository module not present
under `src/`) — §4.1: "produces the unescaped string content between
unescaped double quotes; fails with an unterminated/invalid escape
condition otherwise".  Scans the body after an opening quote. -/
def stringBody : List Char → Option (List Char × List Char)
  | [] => none
  | '"' :: rest => some ([], rest)
  | '\\' :: c :: rest =>
    match
      (if c = '"' then some '"'
       else if c = '\\' then some '\\'
       else if c = '/' then some '/'
       else if c = 'n' then some '\n'
       else if c = 't' then some '\t'
       else if c = 'r' then some '\r'
       else none) with
    | some u =>
      match stringBody rest with
      | some (s, r) => some (u :: s, r)
      | none => none
    | none => none
  | c :: rest =>
    match stringBody rest with
    | some (s, r) => some (c :: s, r)
    | none => none

/-- Modelled from the spec: the delegated quoted-string scanner itself
(see `stringBody`). -/
def parseStringUni : P String := fun input =>
  match input with
  | '"' :: rest =>
    match stringBody rest with
    | some (content, r) => .ok r (String.mk content)
    | none => .err
  | _ => .err

/-- `parse_namespace_value`: a quoted string of alphanumerics, dots and
underscores. -/
def parseNamespaceValue : P String :=
  pmap (pdelimited (charP '"')
          (takeWhileP (fun c => c.isAlphanum || c = '.' || c = '_'))
          (charP '"'))
       String.mk

/-- A legal name segment: `[A-Za-z_][A-Za-z0-9_]*`. -/
def validNamePart (l : List Char) : Bool :=
  match l with
  | [] => false
  | c :: cs => (c.isAlpha || c = '_') && cs.all isIdentChar

/-- Modelled from the spec: `Alias::new` of the external `apache_avro`
collaborator — §4.1: each alias is "independently validated as a legal
alias"; a fullname is dot-separated name segments. -/
def aliasNew (s : String) : Option String :=
  if (s.data.splitOn '.').all validNamePart then some s else none

/-- `parse_aliases`: `@aliases(["a", "b", ...])` as plain strings. -/
def parseAliases : P (List String) :=
  ppreceded (tagS "@aliases")
    (pdelimited (tagS "([")
      (separatedList1 (spaceDelimited (tagS ",")) parseNamespaceValue)
      (tagS "])"))

/-- `map_parse_aliases`: `@aliases([...])` with each alias validated by
`Alias::new`. -/
def mapParseAliases : P (List String) :=
  ppreceded (tagS "@aliases")
    (pdelimited (tagS "([")
      (separatedList1 (spaceDelimited (tagS ","))
        (pmapRes parseNamespaceValue aliasNew))
      (tagS "])"))

/-- `parse_namespace`: `@namespace("a.b.c")`. -/
def parseNamespace : P String :=
  ppreceded (tagS "@namespace")
    (pdelimited (spaceDelimited (tagS "("))
      parseNamespaceValue
      (ppreceded multispace0 (tagS ")")))

/-- `parse_order`: `@order("ascending"|"descending"|"ignore")`,
case-sensitive. -/
def parseOrder : P RFOrder :=
  ppreceded (tagS "@order")
    (pdelimited (spaceDelimited (tagS "("))
      (palt (pvalue RFOrder.ascending (tagS "\"ascending\""))
        (palt (pvalue RFOrder.descending (tagS "\"descending\""))
              (pvalue RFOrder.ignore (tagS "\"ignore\""))))
      (ppreceded multispace0 (tagS ")")))

/-- `parse_logical_type`: `@logicalType("...")`; any value outside the three
recognized strings hits `todo!()` — a process abort. -/
def parseLogicalType : P Schema :=
  ppreceded (tagS "@logicalType")
    (pdelimited (tagS "(")
      (fun input =>
        match parseStringUni input with
        | .ok rest s =>
          if s = "timestamp-micros" then .ok rest Schema.timestampMicros
          else if s = "time-micros" then .ok rest Schema.timeMicros
          else if s = "duration" then .ok rest Schema.duration
          else .panic
        | .err => .err
        | .panic => .panic)
      (commentDelimited (tagS ")")))

/-- `parse_doc`: `/** text */`, captured verbatim. -/
def parseDoc : P String :=
  pdelimited (tagS "/**") (pmap (takeUntilS "*/") String.mk) (tagS "*/")

/-! ## Default-value literal parsers (`map_*`) -/

/-- `map_null`. -/
def mapNull : P AvroValue := pvalue AvroValue.nullV (tagS "null")

/-- `map_bool`. -/
def mapBool : P AvroValue :=
  pmap (palt (pvalue true (tagS "true")) (pvalue false (tagS "false")))
       AvroValue.booleanV

/-- `map_int`: decimal digits parsed as `i32`. -/
def mapInt : P AvroValue := pmap (pmapRes digit1 rustParseI32) AvroValue.intV

/-- `map_long`: decimal digits parsed as `i64`. -/
def mapLong : P AvroValue := pmap (pmapRes digit1 rustParseI64) AvroValue.longV

/-- The float-literal character class of `map_float`/`map_double`. -/
def isFloatChar (c : Char) : Bool := c.isDigit || c = '.' || c = 'e'

/-- `map_float`: a literal over `{digit, '.', 'e'}` parsed as `f32`
(overflow gives a non-finite value, not a parse error). -/
def mapFloat : P AvroValue :=
  pmap (pmapRes (takeWhile1P isFloatChar) rustParseF32) AvroValue.floatV

/-- `map_double`: a literal over `{digit, '.', 'e'}` parsed as `f64`. -/
def mapDouble : P AvroValue :=
  pmap (pmapRes (takeWhile1P isFloatChar) rustParseF64) AvroValue.doubleV

/-- `map_string`: a quoted string default. -/
def mapString : P AvroValue := pmap parseStringUni AvroValue.stringV

/-- UTF-8 bytes of a string, as numbers. -/
def utf8Bytes (s : String) : List Nat := s.toUTF8.toList.map UInt8.toNat

/-- `map_bytes`: a quoted string reinterpreted as its UTF-8 bytes. -/
def mapBytes : P AvroValue := pmap parseStringUni (fun s => .bytesV (utf8Bytes s))

/-- Hexadecimal digit test. -/
def isHexDigit (c : Char) : Bool :=
  c.isDigit || ('a' ≤ c && c ≤ 'f') || ('A' ≤ c && c ≤ 'F')

/-- Modelled from the spec: `Uuid::from_str` of the external `uuid`
collaborator — §4.1: the string is "parsed and validated as a UUID, failing
the whole default if invalid"; accepts the 32-hex-digit simple form or the
8-4-4-4-12 hyphenated form and yields the canonical hyphenated lowercase
rendering. -/
def uuidFromStr (s : String) : Option String :=
  let hex := s.data.filter (fun c => c ≠ '-')
  let okShape :=
    (s.data.length = 32 && s.data.all (fun c => c ≠ '-')) ||
    (s.data.length = 36 &&
      ((s.data.drop 8).take 1 = ['-'] && (s.data.drop 13).take 1 = ['-'] &&
       (s.data.drop 18).take 1 = ['-'] && (s.data.drop 23).take 1 = ['-']))
  if hex.length = 32 && hex.all isHexDigit && okShape then
    let h := hex.map Char.toLower
    some (String.mk (h.take 8 ++ ['-'] ++ (h.drop 8).take 4 ++ ['-'] ++
      (h.drop 12).take 4 ++ ['-'] ++ (h.drop 16).take 4 ++ ['-'] ++ h.drop 20))
  else none

/-- `map_uuid`: a quoted string validated as a UUID. -/
def mapUuid : P AvroValue :=
  pmapRes parseStringUni (fun s => (uuidFromStr s).map AvroValue.uuidV)

/-- `map_usize`: decimal digits parsed as `usize`. -/
def mapUsize : P Nat := pmapRes digit1 rustParseUsize

end AvdlRs

namespace AvdlRs

/-! ## Type grammar (`map_type_to_schema`) -/

/-- List-valued `alt`. -/
def paltL {α : Type} (ps : List (P α)) : P α :=
  match ps with
  | [] => fun _ => .err
  | p :: rest => palt p (paltL rest)

/-- `map_type_to_schema` with explicit recursion fuel (the recursion into
`array<...>` and `union{...}` element types always consumes input first, so
fuel `input.length + 1` never runs out).  Alternatives appear in the source
order; the `union` branch validates with `UnionSchema::new` and `.expect`s,
so a validation error is a process abort. -/
def mapTypeToSchemaF : Nat → P Schema
  | 0 => fun _ => .err
  | Nat.succ fuel =>
    paltL
      [ ppreceded (tagS "array")
          (pdelimited (tagS "<")
            (pmap (mapTypeToSchemaF fuel) Schema.array) (tagS ">"))
      , (fun input =>
          match
            ppreceded (tagS "union")
              (pdelimited (spaceDelimited (tagS "\x7b"))
                (separatedList1 (spaceDelimited (tagS ","))
                  (mapTypeToSchemaF fuel))
                (spaceDelimited (tagS "\x7d"))) input with
          | .ok rest ss =>
            match unionSchemaNew ss with
            | .ok variants => .ok rest (Schema.union variants)
            | .error _ => .panic
          | .err => .err
          | .panic => .panic)
      , pvalue Schema.null (tagS "null")
      , pvalue Schema.boolean (tagS "boolean")
      , pvalue Schema.string (tagS "string")
      , pvalue Schema.int (tagS "int")
      , pvalue Schema.double (tagS "double")
      , pvalue Schema.float (tagS "float")
      , pvalue Schema.long (tagS "long")
      , pvalue Schema.bytes (tagS "bytes")
      , pvalue Schema.timeMillis (tagS "time_ms")
      , pvalue Schema.timestampMillis (tagS "timestamp_ms")
      , pvalue Schema.date (tagS "date")
      , pvalue Schema.uuid (tagS "uuid")
      , pmap (ppreceded (tagS "decimal")
          (pdelimited (tagS "(") (pseq mapUsize mapUsize) (tagS ")")))
          (fun ps => Schema.decimal ps.1 ps.2 Schema.bytes)
      ]

/-- `map_type_to_schema`. -/
def mapTypeToSchema : P Schema := fun input =>
  mapTypeToSchemaF (input.length + 1) input

/-! ## Type-directed default dispatch (`parse_based_on_schema`) -/

/-- The result of calling a Rust function that may panic instead of
returning: `panicked` is a process abort at call time. -/
inductive PanicOr (α : Type) where
  | panicked
  | mk (val : α)

/-- `parse_based_on_schema`: selects the default-literal parser for a
schema.  `Duration` hits `todo!()` and the unhandled kinds (map, record,
enum, fixed, ref) hit `unimplemented!()` — process aborts at selection
time; an empty union aborts in `.expect`; a nonempty union defers to its
first variant. -/
def parseBasedOnSchema : Schema → PanicOr (P AvroValue)
  | .null => .mk mapNull
  | .boolean => .mk mapBool
  | .int => .mk mapInt
  | .long => .mk mapLong
  | .float => .mk mapFloat
  | .double => .mk mapDouble
  | .bytes => .mk mapBytes
  | .string => .mk mapString
  | .array s =>
    .mk (fun input =>
      pdelimited (tagS "[")
        (pmap
          (separatedList0 (tagS ",")
            (fun i =>
              match parseBasedOnSchema s with
              | .panicked => .panic
              | .mk p => p i))
          AvroValue.arrayV)
        (tagS "]") input)
  | .union [] => .panicked
  | .union (v :: _) => parseBasedOnSchema v
  | .date => .mk mapInt
  | .timeMillis => .mk mapInt
  | .timestampMillis => .mk mapLong
  | .uuid => .mk mapUuid
  | .decimal _ _ _ => .mk mapBytes
  | .timestampMicros => .mk mapLong
  | .timeMicros => .mk mapLong
  | .duration => .panicked
  | .mapS _ => .panicked
  | .record _ _ _ _ => .panicked
  | .enum _ _ _ _ => .panicked
  | .fixed _ _ _ _ => .panicked
  | .ref _ => .panicked

/-- The tuple a field-form parser returns:
`(Schema, Option<RecordFieldOrder>, Option<Vec<String>>, VarName, Option<Value>)`. -/
abbrev FieldTuple : Type :=
  Schema × Option RFOrder × Option (List String) × String × Option Json

/-! ## Field-form parsers -/

/-- `parse_field`: optional `@logicalType` (overriding the type), the type
expression, the `@order`/`@aliases` permutation, the name, an optional
default parsed by the type-selected grammar, then `;`. -/
def parseField : P FieldTuple := fun input =>
  match popt (commentDelimited parseLogicalType) input with
  | .err => .err
  | .panic => .panic
  | .ok t1 logicalSchema =>
    match mapTypeToSchema t1 with
    | .err => .err
    | .panic => .panic
    | .ok t2 schema0 =>
      let schema := match logicalSchema with
        | some s => s
        | none => schema0
      match parseBasedOnSchema schema with
      | .panicked => .panic
      | .mk defaultP =>
        match
          pterminated
            (pseq
              (permutationOpt2 (commentDelimited parseOrder)
                               (commentDelimited parseAliases))
              (pseq (commentDelimited parseVarName)
                (popt (ppreceded (commentDelimited (tagS "="))
                  (pmapRes defaultP avroToJson)))))
            (ppreceded space0 (commentDelimited (tagS ";"))) t2 with
        | .ok rest ((order, aliases), varname, defaults) =>
          .ok rest (schema, order, aliases, String.mk varname, defaults)
        | .err => .err
        | .panic => .panic

/-- `parse_union`: like `parse_field` but with no `@logicalType` handling;
the default grammar is selected from the resolved (union) schema. -/
def parseUnion : P FieldTuple := fun input =>
  match mapTypeToSchema input with
  | .err => .err
  | .panic => .panic
  | .ok t1 schema =>
    match parseBasedOnSchema schema with
    | .panicked => .panic
    | .mk defaultP =>
      match
        pterminated
          (pseq
            (permutationOpt2 (commentDelimited parseOrder)
                             (commentDelimited parseAliases))
            (pseq (commentDelimited parseVarName)
              (popt (ppreceded (commentDelimited (tagS "="))
                (pmapRes defaultP avroToJson)))))
          (ppreceded space0 (commentDelimited (tagS ";"))) t1 with
      | .ok rest ((order, aliases), varname, defaults) =>
        .ok rest (schema, order, aliases, String.mk varname, defaults)
      | .err => .err
      | .panic => .panic

/-- `parse_array`: `array<T> [@order] [@aliases] name [= [...]];` — the
annotations are sequential `opt`s (order before aliases), and the default
list elements are parsed with `T`'s dispatch grammar. -/
def parseArray : P FieldTuple := fun input =>
  match
    ppreceded (tagS "array")
      (pdelimited (tagS "<") mapTypeToSchema (tagS ">")) input with
  | .err => .err
  | .panic => .panic
  | .ok t1 elemSchema =>
    match parseBasedOnSchema elemSchema with
    | .panicked => .panic
    | .mk elemP =>
      match
        pterminated
          (pseq (popt (spaceDelimited parseOrder))
            (pseq (popt (spaceDelimited parseAliases))
              (pseq (spaceDelimited parseVarName)
                (popt (ppreceded (spaceDelimited (tagS "="))
                  (pdelimited (tagS "[")
                    (pmapRes (separatedList0 (tagS ",") elemP)
                      (fun vs => avroToJson (.arrayV vs)))
                    (tagS "]")))))))
          (tagS ";") t1 with
      | .ok rest (order, aliases, varname, defaults) =>
        .ok rest (Schema.array elemSchema, order, aliases,
                  String.mk varname, defaults)
      | .err => .err
      | .panic => .panic

/-- `parse_map`: `map<T> [@order] [@aliases] name [= {...}];` — the
annotations are sequential `opt`s (order before aliases), and the default
entries are `"key": value` pairs with values parsed by `T`'s grammar. -/
def parseMap : P FieldTuple := fun input =>
  match
    ppreceded (tagS "map")
      (pdelimited (tagS "<") mapTypeToSchema (tagS ">")) input with
  | .err => .err
  | .panic => .panic
  | .ok t1 valSchema =>
    match parseBasedOnSchema valSchema with
    | .panicked => .panic
    | .mk valP =>
      match
        pterminated
          (pseq (popt (spaceDelimited parseOrder))
            (pseq (popt (spaceDelimited parseAliases))
              (pseq (spaceDelimited parseVarName)
                (popt (ppreceded (spaceDelimited (tagS "="))
                  (pdelimited (tagS "\x7b")
                    (pmapRes
                      (separatedList0 (spaceDelimited (tagS ","))
                        (pseq parseStringUni
                          (ppreceded (spaceDelimited (tagS ":")) valP)))
                      (fun kvs => avroToJson (.mapV kvs)))
                    (tagS "\x7d")))))))
          (tagS ";") t1 with
      | .ok rest (order, aliases, varname, defaults) =>
        .ok rest (Schema.mapS valSchema, order, aliases,
                  String.mk varname, defaults)
      | .err => .err
      | .panic => .panic

end AvdlRs

namespace AvdlRs

/-! ## Declaration parsers -/

/-- `parse_enum_item`: a whitespace-delimited symbol name. -/
def parseEnumItem : P (List Char) :=
  pdelimited multispace0 parseVarName multispace0

/-- `parse_enum_symbols`: `{ SYM, SYM, ... }`. -/
def parseEnumSymbols : P (List (List Char)) :=
  pdelimited multispace0
    (pdelimited (tagS "\x7b")
      (separatedList1 (tagS ",") parseEnumItem)
      (tagS "\x7d"))
    multispace0

/-- `parse_enum_name`: `enum Name`. -/
def parseEnumName : P (List Char) :=
  spaceDelimited (ppreceded (spaceDelimited (tagS "enum")) parseVarName)

/-- `parse_enum_default`: `= SYMBOL;`. -/
def parseEnumDefault : P String :=
  pterminated
    (ppreceded (spaceDelimited (tagS "="))
      (pmap parseEnumItem String.mk))
    (tagS ";")

/-- `parse_enum`: aliases?, name, symbols, optional default trailer.  The
default is accepted but ignored (only a warning is printed); the name is
always a legal identifier, so `Name::new(..).unwrap()` cannot abort. -/
def parseEnum : P Schema := fun input =>
  match
    pseq (popt mapParseAliases)
      (pseq parseEnumName (pseq parseEnumSymbols (popt parseEnumDefault)))
      input with
  | .ok rest (aliases, name, symbols, _default) =>
    .ok rest (Schema.enum ⟨String.mk name, none⟩ aliases none
                (symbols.map String.mk))
  | .err => .err
  | .panic => .panic

/-- `parse_fixed`: optional doc comment, then
`fixed [@order] [@aliases] Name(size);` — the parsed aliases are stored on
the node, the parsed order is dropped. -/
def parseFixed : P Schema := fun input =>
  match
    pseq (spaceDelimited (popt parseDoc))
      (ppreceded (tagS "fixed")
        (pterminated
          (spaceDelimited
            (pseq (popt (spaceDelimited parseOrder))
              (pseq (popt (spaceDelimited mapParseAliases))
                (pseq parseVarName
                  (pdelimited (tagS "(") mapUsize (tagS ")"))))))
          (charP ';'))) input with
  | .ok rest (doc, _order, aliases, name, size) =>
    .ok rest (Schema.fixed ⟨String.mk name, none⟩ aliases doc size)
  | .err => .err
  | .panic => .panic

/-- `parse_record_name`: `record Name`. -/
def parseRecordName : P (List Char) :=
  ppreceded (tagS "record") (spaceDelimited parseVarName)

/-- Assemble a `RecordField` from a field-form tuple, as each arm of
`parse_record_field` does (doc `None`, order defaulting to `Ascending`,
position 0). -/
def mkRecordField (t : FieldTuple) : RecordField :=
  match t with
  | (schema, order, aliases, name, default) =>
    .mk name none default schema
        (match order with | some o => o | none => .ascending)
        aliases 0

/-- `parse_record_field`: whitespace, then the first of
union-form / map-form / array-form / generic-form to succeed, with optional
surrounding comments. -/
def parseRecordField : P RecordField :=
  ppreceded multispace0
    (commentDelimited
      (paltL
        [ pmap parseUnion mkRecordField
        , pmap parseMap mkRecordField
        , pmap parseArray mkRecordField
        , pmap parseField mkRecordField ]))

/-- `parse_record`: a permutation of optional `@aliases` and optional
`@namespace`, then `record Name { field+ }`; the namespace is injected into
the record's `Name` after the bare name is parsed. -/
def parseRecord : P Schema := fun input =>
  match
    pseq
      (permutationOpt2 (commentDelimited mapParseAliases)
                       (commentDelimited parseNamespace))
      (pseq (ppreceded multispace0 parseRecordName)
        (ppreceded multispace0
          (pdelimited (tagS "\x7b")
            (many1 parseRecordField)
            (ppreceded multispace0 (tagS "\x7d"))))) input with
  | .ok rest ((aliases, namesp), name, fields) =>
    .ok rest (Schema.record ⟨String.mk name, namesp⟩ aliases none fields)
  | .err => .err
  | .panic => .panic

/-- `parse_protocol`: `protocol Name { (record|enum|fixed)+ }`, returning
the declarations in order (the protocol name is discarded). -/
def parseProtocol : P (List Schema) :=
  pmap
    (pseq
      (ppreceded multispace0
        (ppreceded (tagS "protocol") (spaceDelimited alphanumeric1)))
      (pdelimited (spaceDelimited (tagS "\x7b"))
        (many1 (commentDelimited
          (paltL [parseRecord, parseEnum, parseFixed])))
        (ppreceded multispace0 (tagS "\x7d"))))
    (fun x => x.2)

/-! ## Serializer (`impl Serialize for Schema` / `RecordField`) -/

/-- JSON rendering of `serde_json` numbers for canonical-form strings. -/
def natDigits : Nat → List Char
  | n =>
    if h : n < 10 then [Char.ofNat (48 + n)]
    else
      natDigits (n / 10) ++ [Char.ofNat (48 + n % 10)]
  decreasing_by exact Nat.div_lt_self (by omega) (by omega)

/-- Decimal rendering of a natural number. -/
def natToString (n : Nat) : String := String.mk (natDigits n)

/-- The fullname of a `Name`: `namespace.name` when a namespace is present. -/
def fullname (n : NameT) : String :=
  match n.ns with
  | some ns => ns ++ "." ++ n.name
  | none => n.name

mutual
/-- The `Serialize` implementation for `Schema` (`src/schema.rs:311`),
as a JSON value with object entries in emission order. -/
def jsonOf : Schema → Json
  | .ref name => .str (fullname name)
  | .null => .str "null"
  | .boolean => .str "boolean"
  | .int => .str "int"
  | .long => .str "long"
  | .float => .str "float"
  | .double => .str "double"
  | .bytes => .str "bytes"
  | .string => .str "string"
  | .array inner => .obj [("type", .str "array"), ("items", jsonOf inner)]
  | .mapS inner => .obj [("type", .str "map"), ("values", jsonOf inner)]
  | .union variants => .arr (jsonOfList variants)
  | .record name aliases doc fields =>
    .obj
      ([("type", .str "record")] ++
       (match name.ns with
        | some n => [("namespace", Json.str n)]
        | none => []) ++
       [("name", .str name.name)] ++
       (match doc with
        | some d => [("doc", Json.str d)]
        | none => []) ++
       (match aliases with
        | some al => [("aliases", Json.arr (al.map Json.str))]
        | none => []) ++
       [("fields", .arr (jsonOfFields fields))])
  | .enum name aliases _doc symbols =>
    .obj
      ([("type", .str "enum")] ++
       (match name.ns with
        | some n => [("namespace", Json.str n)]
        | none => []) ++
       [("name", .str name.name),
        ("symbols", .arr (symbols.map Json.str))] ++
       (match aliases with
        | some al => [("aliases", Json.arr (al.map Json.str))]
        | none => []))
  | .fixed name aliases doc size =>
    .obj
      ([("type", .str "fixed")] ++
       (match name.ns with
        | some n => [("namespace", Json.str n)]
        | none => []) ++
       [("name", .str name.name)] ++
       (match doc with
        | some d => [("doc", Json.str d)]
        | none => []) ++
       [("size", .num (.int size))] ++
       (match aliases with
        | some al => [("aliases", Json.arr (al.map Json.str))]
        | none => []))
  | .decimal precision scale inner =>
    .obj [("type", jsonOf inner), ("logicalType", .str "decimal"),
          ("scale", .num (.int scale)), ("precision", .num (.int precision))]
  | .uuid => .obj [("type", .str "string"), ("logicalType", .str "uuid")]
  | .date => .obj [("type", .str "int"), ("logicalType", .str "date")]
  | .timeMillis =>
    .obj [("type", .str "int"), ("logicalType", .str "time-millis")]
  | .timeMicros =>
    .obj [("type", .str "long"), ("logicalType", .str "time-micros")]
  | .timestampMillis =>
    .obj [("type", .str "long"), ("logicalType", .str "timestamp-millis")]
  | .timestampMicros =>
    .obj [("type", .str "long"), ("logicalType", .str "timestamp-micros")]
  | .duration =>
    .obj [("type", .obj [("type", .str "fixed"), ("name", .str "duration"),
                         ("size", .num (.int 12))]),
          ("logicalType", .str "duration")]

/-- Serialization of a union's members in order. -/
def jsonOfList : List Schema → List Json
  | [] => []
  | s :: rest => jsonOf s :: jsonOfList rest

/-- The `Serialize` implementation for `RecordField` (`src/schema.rs:478`):
`name`, `type`, then `default` and `aliases` when present. -/
def jsonOfField : RecordField → Json
  | .mk name _doc default schema _order aliases _pos =>
    .obj
      ([("name", .str name), ("type", jsonOf schema)] ++
       (match default with
        | some d => [("default", d)]
        | none => []) ++
       (match aliases with
        | some al => [("aliases", Json.arr (al.map Json.str))]
        | none => []))

/-- Serialization of a record's fields in order. -/
def jsonOfFields : List RecordField → List Json
  | [] => []
  | f :: rest => jsonOfField f :: jsonOfFields rest
end

end AvdlRs

namespace AvdlRs

/-- A JSON string literal (the names involved never need escaping). -/
def jstr (s : String) : String := "\"" ++ s ++ "\""

mutual
/-- Modelled from the spec: `Schema::canonical_form` of the external
`apache_avro` collaborator, per §4.6/§3 — the Avro Parsing Canonical Form:
docs, aliases and defaults are stripped, named types use fullnames, logical
types reduce to their underlying primitive spelling, object keys appear in
the canonical order (`name`, `type`, `fields`/`symbols`/`items`/`values`/
`size`), and primitives render as bare quoted names. -/
def canonicalForm : Schema → String
  | .null => jstr "null"
  | .boolean => jstr "boolean"
  | .int => jstr "int"
  | .long => jstr "long"
  | .float => jstr "float"
  | .double => jstr "double"
  | .bytes => jstr "bytes"
  | .string => jstr "string"
  | .array inner =>
    "\x7b\"type\":\"array\",\"items\":" ++ canonicalForm inner ++ "\x7d"
  | .mapS inner =>
    "\x7b\"type\":\"map\",\"values\":" ++ canonicalForm inner ++ "\x7d"
  | .union variants => "[" ++ canonicalFormList variants ++ "]"
  | .record name _aliases _doc fields =>
    "\x7b\"name\":" ++ jstr (fullname name) ++
      ",\"type\":\"record\",\"fields\":[" ++ canonicalFormFields fields ++ "]\x7d"
  | .enum name _aliases _doc symbols =>
    "\x7b\"name\":" ++ jstr (fullname name) ++
      ",\"type\":\"enum\",\"symbols\":[" ++
      String.intercalate "," (symbols.map jstr) ++ "]\x7d"
  | .fixed name _aliases _doc size =>
    "\x7b\"name\":" ++ jstr (fullname name) ++
      ",\"type\":\"fixed\",\"size\":" ++ natToString size ++ "\x7d"
  | .decimal _precision _scale inner => canonicalForm inner
  | .uuid => jstr "string"
  | .date => jstr "int"
  | .timeMillis => jstr "int"
  | .timeMicros => jstr "long"
  | .timestampMillis => jstr "long"
  | .timestampMicros => jstr "long"
  | .duration => "\x7b\"name\":\"duration\",\"type\":\"fixed\",\"size\":12\x7d"
  | .ref name => jstr (fullname name)

/-- Canonical forms of a union's members, comma-separated. -/
def canonicalFormList : List Schema → String
  | [] => ""
  | [s] => canonicalForm s
  | s :: rest => canonicalForm s ++ "," ++ canonicalFormList rest

/-- Canonical forms of a record's fields (name and type only). -/
def canonicalFormFields : List RecordField → String
  | [] => ""
  | [.mk name _ _ schema _ _ _] =>
    "\x7b\"name\":" ++ jstr name ++ ",\"type\":" ++ canonicalForm schema ++ "\x7d"
  | .mk name _ _ schema _ _ _ :: rest =>
    "\x7b\"name\":" ++ jstr name ++ ",\"type\":" ++ canonicalForm schema ++
      "\x7d," ++ canonicalFormFields rest
end

/-- `impl PartialEq for Schema` (`src/schema.rs:226`): equality is textual
equality of canonical forms. -/
def eqSchema (a b : Schema) : Bool := canonicalForm a == canonicalForm b

end AvdlRs

namespace AvdlRs

/-! ## Example sources and schemas used by the theorems -/

/-- A record schema carrying doc, aliases and a field default. -/
def recAnnotated : Schema :=
  .record ⟨"R", none⟩ (some ["Old"]) (some "a doc")
    [.mk "x" (some "field doc") (some (.num (.int 1))) .int .ascending
      (some ["y"]) 0]

/-- The same record stripped of doc, aliases and defaults. -/
def recBare : Schema :=
  .record ⟨"R", none⟩ none none [.mk "x" none none .int .ascending none 0]

/-- A record with fields `x: int` then `y: string`. -/
def recXY : Schema :=
  .record ⟨"R", none⟩ none none
    [.mk "x" none none .int .ascending none 0,
     .mk "y" none none .string .ascending none 0]

/-- The same two fields in the opposite order. -/
def recYX : Schema :=
  .record ⟨"R", none⟩ none none
    [.mk "y" none none .string .ascending none 0,
     .mk "x" none none .int .ascending none 0]

/-- A record whose single field has type `string` instead of `int`. -/
def recXStr : Schema :=
  .record ⟨"R", none⟩ none none
    [.mk "x" none none .string .ascending none 0]

/-- The `record Employee` source of the round-trip test. -/
def employeeSource : String :=
  "record Employee \x7b\n            string name;\n            boolean active = true;\n            long salary;\n        \x7d"

/-- The schema `parse_record` produces for `employeeSource`. -/
def employeeSchema : Schema :=
  .record ⟨"Employee", none⟩ none none
    [.mk "name" none none .string .ascending none 0,
     .mk "active" none (some (.bool true)) .boolean .ascending none 0,
     .mk "salary" none none .long .ascending none 0]

end AvdlRs

namespace AvdlRs

theorem takeWhileP_notfirst (f : Char → Bool) (c : Char) (cs : List Char)
    (h : f c = false) : takeWhileP f (c :: cs) = .ok (c :: cs) [] := by
  simp [takeWhileP, h]

theorem takeWhileP_append (f : Char → Bool) (lit : List Char) (c : Char)
    (rest : List Char) (h1 : lit.all f) (h2 : f c = false) :
    takeWhileP f (lit ++ c :: rest) = .ok (c :: rest) lit := by
  induction lit with
  | nil => simp [takeWhileP, h2]
  | cons x xs ih =>
    simp only [List.all_cons, Bool.and_eq_true] at h1
    simp [takeWhileP, h1.1, ih h1.2]

theorem isDigit_not_ws (c : Char) (h : c.isDigit = true) : isWS c = false := by
  by_contra hw
  simp only [Bool.not_eq_false, isWS, Bool.or_eq_true, decide_eq_true_eq] at hw
  rcases hw with ((h1 | h1) | h1) | h1 <;> subst h1 <;> simp [Char.isDigit] at h

theorem floatChar_not_ws (c : Char) (h : isFloatChar c = true) :
    isWS c = false := by
  simp only [isFloatChar, Bool.or_eq_true, decide_eq_true_eq] at h
  rcases h with (h | h) | h
  · exact isDigit_not_ws c h
  · subst h; rfl
  · subst h; rfl

theorem isDigit_ne_slash (c : Char) (h : c.isDigit = true) : (c = '/') = False := by
  simp only [eq_iff_iff, iff_false]
  intro he
  subst he
  simp [Char.isDigit] at h

theorem floatChar_ne_slash (c : Char) (h : isFloatChar c = true) :
    (c = '/') = False := by
  simp only [isFloatChar, Bool.or_eq_true, decide_eq_true_eq] at h
  rcases h with (h | h) | h
  · exact isDigit_ne_slash c h
  · subst h; simp
  · subst h; simp

theorem parseComment_notslash (c : Char) (cs : List Char)
    (h : (c = '/') = False) : parseComment (c :: cs) = .err := by
  simp [parseComment, palt, pdelimited, pterminated, ppreceded, pseq, pmap,
    tagS, tagL, h]

/-- Skipping the optional `@logicalType` annotation at a head character that
starts no whitespace, comment or annotation consumes nothing. -/
theorem skipLogicalType (c : Char) (cs : List Char)
    (hws : isWS c = false) (hsl : (c = '/') = False) (hat : (c = '@') = False) :
    popt (commentDelimited parseLogicalType) (c :: cs) = .ok (c :: cs) none := by
  simp [popt, commentDelimited, spaceDelimited, pdelimited, pterminated,
    ppreceded, pseq, pmap, pvalue, multispace0, takeWhileP_notfirst _ _ _ hws,
    parseComment_notslash _ _ hsl, parseLogicalType, tagS, tagL, hat]

/-- Evaluation of the shared field body — annotation permutation, the name
`age`, the optional default (via a given default parser `dp`), and the `;`
terminator — on `" age = " ++ rest`, when `rest` begins with no whitespace
or comment. -/
theorem fieldBody_eval (dp : P AvroValue) (rest : List Char)
    (hms : takeWhileP isWS rest = .ok rest [])
    (hcm : parseComment rest = .err) :
    pterminated
      (pseq
        (permutationOpt2 (commentDelimited parseOrder)
                         (commentDelimited parseAliases))
        (pseq (commentDelimited parseVarName)
          (popt (ppreceded (commentDelimited (tagS "="))
            (pmapRes dp avroToJson)))))
      (ppreceded space0 (commentDelimited (tagS ";")))
      (' ' :: 'a' :: 'g' :: 'e' :: ' ' :: '=' :: ' ' :: rest) =
    match pmapRes dp avroToJson rest with
    | .ok rest2 j =>
      (match ppreceded space0 (commentDelimited (tagS ";")) rest2 with
       | .ok r3 _ => .ok r3 ((none, none), (['a', 'g', 'e'], some j))
       | .err => .err
       | .panic => .panic)
    | .err => .err
    | .panic => .panic := by
  have h3 : permutationOpt2 (commentDelimited parseOrder)
      (commentDelimited parseAliases)
      (' ' :: 'a' :: 'g' :: 'e' :: ' ' :: '=' :: ' ' :: rest) =
      .ok (' ' :: 'a' :: 'g' :: 'e' :: ' ' :: '=' :: ' ' :: rest)
        (none, none) := by
    simp [permutationOpt2, commentDelimited, spaceDelimited, popt,
      parseComment, tagS, tagL, parseOrder, parseAliases, multispace0,
      takeWhileP, isWS, pvalue, pmap, pdelimited, pterminated, ppreceded,
      pseq, palt, takeUntilS, takeUntilL]
  have h4 : commentDelimited parseVarName
      (' ' :: 'a' :: 'g' :: 'e' :: ' ' :: '=' :: ' ' :: rest) =
      .ok ('=' :: ' ' :: rest) ['a', 'g', 'e'] := by
    simp [commentDelimited, spaceDelimited, popt, parseComment, tagS, tagL,
      parseVarName, isIdentChar, multispace0, takeWhileP, isWS, pvalue, pmap,
      pdelimited, pterminated, ppreceded, pseq, palt, takeUntilS, takeUntilL]
  have h5 : commentDelimited (tagS "=") ('=' :: ' ' :: rest) =
      .ok rest () := by
    simp only [commentDelimited, spaceDelimited, pdelimited, pterminated,
      ppreceded, pseq, pmap, popt, pvalue, multispace0]
    have e1 : isWS '=' = false := rfl
    have e2 : isWS ' ' = true := rfl
    have c1 : parseComment ('=' :: ' ' :: rest) = .err :=
      parseComment_notslash _ _ (by simp)
    simp [takeWhileP, e1, e2, hms, hcm, c1, tagS, tagL, popt,
      pdelimited, pterminated, ppreceded, pseq, pmap]
  have h7err : ppreceded space0 (commentDelimited (tagS ";"))
      ('=' :: ' ' :: rest) = .err := by
    simp [ppreceded, pseq, pmap, space0, pvalue, takeWhileP, commentDelimited,
      spaceDelimited, popt, parseComment, tagS, tagL, multispace0, isWS, palt,
      takeUntilS, takeUntilL, pdelimited, pterminated]
  cases hdp : pmapRes dp avroToJson rest with
  | ok rest2 j =>
    have h56 : popt (ppreceded (commentDelimited (tagS "="))
        (pmapRes dp avroToJson)) ('=' :: ' ' :: rest) = .ok rest2 (some j) := by
      simp only [popt, ppreceded, pseq, pmap, h5, hdp]
    simp only [pterminated, pseq, pmap, h3, h4, h56, hdp]
    cases hA : ppreceded space0 (commentDelimited (tagS ";")) rest2 <;>
      simp only [hA]
  | err =>
    have h56 : popt (ppreceded (commentDelimited (tagS "="))
        (pmapRes dp avroToJson)) ('=' :: ' ' :: rest) =
        .ok ('=' :: ' ' :: rest) none := by
      simp only [popt, ppreceded, pseq, pmap, h5, hdp]
    simp only [pterminated, pseq, pmap, h3, h4, h56, hdp, h7err]
  | panic =>
    have h56 : popt (ppreceded (commentDelimited (tagS "="))
        (pmapRes dp avroToJson)) ('=' :: ' ' :: rest) = .panic := by
      simp only [popt, ppreceded, pseq, pmap, h5, hdp]
    simp only [pterminated, pseq, pmap, h3, h4, h56, hdp]

end AvdlRs

namespace AvdlRs

/-- Generic evaluation of `parse_field` on `<type> age = <rest>` once the
leading-annotation skip, the type resolution, and the dispatch are given. -/
theorem parseField_eval (input tailPart : List Char) (schema : Schema)
    (dp : P AvroValue)
    (h1 : popt (commentDelimited parseLogicalType) input = .ok input none)
    (h2 : mapTypeToSchema input =
      .ok (' ' :: 'a' :: 'g' :: 'e' :: ' ' :: '=' :: ' ' :: tailPart) schema)
    (h3 : parseBasedOnSchema schema = .mk dp)
    (hms : takeWhileP isWS tailPart = .ok tailPart [])
    (hcm : parseComment tailPart = .err) :
    parseField input =
      match pmapRes dp avroToJson tailPart with
      | .ok rest2 j =>
        (match ppreceded space0 (commentDelimited (tagS ";")) rest2 with
         | .ok r3 _ => .ok r3 (schema, none, none, "age", some j)
         | .err => .err
         | .panic => .panic)
      | .err => .err
      | .panic => .panic := by
  have hb := fieldBody_eval dp tailPart hms hcm
  have hage : String.mk ['a', 'g', 'e'] = "age" := rfl
  cases hdp : pmapRes dp avroToJson tailPart with
  | ok rest2 j =>
    simp only [hdp] at hb
    cases hA : ppreceded space0 (commentDelimited (tagS ";")) rest2 <;>
      simp only [parseField, h1, h2, h3, hb, hdp, hA, hage]
  | err =>
    simp only [hdp] at hb
    simp only [parseField, h1, h2, h3, hb, hdp]
  | panic =>
    simp only [hdp] at hb
    simp only [parseField, h1, h2, h3, hb, hdp]

theorem mapTypeToSchemaF_float (k : Nat) (rest : List Char) :
    mapTypeToSchemaF (k + 1)
      ('f' :: 'l' :: 'o' :: 'a' :: 't' :: rest) = .ok rest Schema.float := by
  simp [mapTypeToSchemaF, paltL, palt, tagS, tagL, pvalue, pmap, ppreceded,
    pseq, pdelimited, pterminated]

theorem mapTypeToSchema_float (rest : List Char) :
    mapTypeToSchema ('f' :: 'l' :: 'o' :: 'a' :: 't' :: rest) =
      .ok rest Schema.float :=
  mapTypeToSchemaF_float _ rest

theorem mapTypeToSchemaF_double (k : Nat) (rest : List Char) :
    mapTypeToSchemaF (k + 1)
      ('d' :: 'o' :: 'u' :: 'b' :: 'l' :: 'e' :: rest) =
      .ok rest Schema.double := by
  simp [mapTypeToSchemaF, paltL, palt, tagS, tagL, pvalue, pmap, ppreceded,
    pseq, pdelimited, pterminated]

theorem mapTypeToSchema_double (rest : List Char) :
    mapTypeToSchema ('d' :: 'o' :: 'u' :: 'b' :: 'l' :: 'e' :: rest) =
      .ok rest Schema.double :=
  mapTypeToSchemaF_double _ rest

theorem mapTypeToSchemaF_int (k : Nat) (rest : List Char) :
    mapTypeToSchemaF (k + 1) ('i' :: 'n' :: 't' :: rest) =
      .ok rest Schema.int := by
  simp [mapTypeToSchemaF, paltL, palt, tagS, tagL, pvalue, pmap, ppreceded,
    pseq, pdelimited, pterminated]

theorem mapTypeToSchema_int (rest : List Char) :
    mapTypeToSchema ('i' :: 'n' :: 't' :: rest) = .ok rest Schema.int :=
  mapTypeToSchemaF_int _ rest

theorem mapTypeToSchemaF_long (k : Nat) (rest : List Char) :
    mapTypeToSchemaF (k + 1) ('l' :: 'o' :: 'n' :: 'g' :: rest) =
      .ok rest Schema.long := by
  simp [mapTypeToSchemaF, paltL, palt, tagS, tagL, pvalue, pmap, ppreceded,
    pseq, pdelimited, pterminated]

theorem mapTypeToSchema_long (rest : List Char) :
    mapTypeToSchema ('l' :: 'o' :: 'n' :: 'g' :: rest) = .ok rest Schema.long :=
  mapTypeToSchemaF_long _ rest

theorem mapTypeToSchemaF_date (k : Nat) (rest : List Char) :
    mapTypeToSchemaF (k + 1) ('d' :: 'a' :: 't' :: 'e' :: rest) =
      .ok rest Schema.date := by
  simp [mapTypeToSchemaF, paltL, palt, tagS, tagL, pvalue, pmap, ppreceded,
    pseq, pdelimited, pterminated]

theorem mapTypeToSchema_date (rest : List Char) :
    mapTypeToSchema ('d' :: 'a' :: 't' :: 'e' :: rest) = .ok rest Schema.date :=
  mapTypeToSchemaF_date _ rest

theorem mapTypeToSchemaF_timeMs (k : Nat) (rest : List Char) :
    mapTypeToSchemaF (k + 1)
      ('t' :: 'i' :: 'm' :: 'e' :: '_' :: 'm' :: 's' :: rest) =
      .ok rest Schema.timeMillis := by
  simp [mapTypeToSchemaF, paltL, palt, tagS, tagL, pvalue, pmap, ppreceded,
    pseq, pdelimited, pterminated]

theorem mapTypeToSchema_timeMs (rest : List Char) :
    mapTypeToSchema ('t' :: 'i' :: 'm' :: 'e' :: '_' :: 'm' :: 's' :: rest) =
      .ok rest Schema.timeMillis :=
  mapTypeToSchemaF_timeMs _ rest

theorem mapTypeToSchemaF_timestampMs (k : Nat) (rest : List Char) :
    mapTypeToSchemaF (k + 1)
      ('t' :: 'i' :: 'm' :: 'e' :: 's' :: 't' :: 'a' :: 'm' :: 'p' :: '_'
        :: 'm' :: 's' :: rest) = .ok rest Schema.timestampMillis := by
  simp [mapTypeToSchemaF, paltL, palt, tagS, tagL, pvalue, pmap, ppreceded,
    pseq, pdelimited, pterminated]

theorem mapTypeToSchema_timestampMs (rest : List Char) :
    mapTypeToSchema ('t' :: 'i' :: 'm' :: 'e' :: 's' :: 't' :: 'a' :: 'm'
        :: 'p' :: '_' :: 'm' :: 's' :: rest) = .ok rest Schema.timestampMillis :=
  mapTypeToSchemaF_timestampMs _ rest

end AvdlRs

namespace AvdlRs

theorem termSemi_ok : ppreceded space0 (commentDelimited (tagS ";")) [';'] =
    .ok [] () := by
  simp [ppreceded, pseq, pmap, space0, pvalue, takeWhileP, commentDelimited,
    spaceDelimited, popt, parseComment, tagS, tagL, multispace0, isWS, palt,
    takeUntilS, takeUntilL, pdelimited, pterminated]

/-- Full characterization of `parse_field` on `float age = <lit>;` for a
literal drawn from the float character class: the field parse fails exactly
when Rust's `f32` parse fails or yields a non-finite value, and otherwise
the default is the rounded value as a finite JSON number. -/
theorem parseField_floatLit (c : Char) (cs : List Char)
    (hc : isFloatChar c = true) (hall : cs.all isFloatChar = true) :
    parseField ('f' :: 'l' :: 'o' :: 'a' :: 't' :: ' ' :: 'a' :: 'g' :: 'e'
        :: ' ' :: '=' :: ' ' :: (c :: (cs ++ [';']))) =
      match rustParseF32 (c :: cs) with
      | none => .err
      | some none => .err
      | some (some d) =>
        .ok [] (.float, none, none, "age", some (.num (.fl d))) := by
  have hws := floatChar_not_ws c hc
  have hsl := floatChar_ne_slash c hc
  have h0 := parseField_eval _ (c :: (cs ++ [';'])) Schema.float mapFloat
    (skipLogicalType 'f' _ rfl (by simp) (by simp))
    (mapTypeToSchema_float
      (' ' :: 'a' :: 'g' :: 'e' :: ' ' :: '=' :: ' ' :: (c :: (cs ++ [';']))))
    rfl
    (takeWhileP_notfirst isWS c (cs ++ [';']) hws)
    (parseComment_notslash c (cs ++ [';']) hsl)
  rw [h0]
  have hscan : takeWhileP isFloatChar (c :: (cs ++ [';'])) =
      .ok [';'] (c :: cs) := by
    have := takeWhileP_append isFloatChar (c :: cs) ';' []
      (by simp [hc, hall]) (by decide)
    simpa using this
  rcases hr : rustParseF32 (c :: cs) with _ | (_ | d) <;>
    simp [pmapRes, mapFloat, pmap, takeWhile1P, hc, hscan, hr, avroToJson,
      termSemi_ok]

/-- The `double` analogue of `parseField_floatLit`. -/
theorem parseField_doubleLit (c : Char) (cs : List Char)
    (hc : isFloatChar c = true) (hall : cs.all isFloatChar = true) :
    parseField ('d' :: 'o' :: 'u' :: 'b' :: 'l' :: 'e' :: ' ' :: 'a' :: 'g'
        :: 'e' :: ' ' :: '=' :: ' ' :: (c :: (cs ++ [';']))) =
      match rustParseF64 (c :: cs) with
      | none => .err
      | some none => .err
      | some (some d) =>
        .ok [] (.double, none, none, "age", some (.num (.fl d))) := by
  have hws := floatChar_not_ws c hc
  have hsl := floatChar_ne_slash c hc
  have h0 := parseField_eval _ (c :: (cs ++ [';'])) Schema.double mapDouble
    (skipLogicalType 'd' _ rfl (by simp) (by simp))
    (mapTypeToSchema_double
      (' ' :: 'a' :: 'g' :: 'e' :: ' ' :: '=' :: ' ' :: (c :: (cs ++ [';']))))
    rfl
    (takeWhileP_notfirst isWS c (cs ++ [';']) hws)
    (parseComment_notslash c (cs ++ [';']) hsl)
  rw [h0]
  have hscan : takeWhileP isFloatChar (c :: (cs ++ [';'])) =
      .ok [';'] (c :: cs) := by
    have := takeWhileP_append isFloatChar (c :: cs) ';' []
      (by simp [hc, hall]) (by decide)
    simpa using this
  rcases hr : rustParseF64 (c :: cs) with _ | (_ | d) <;>
    simp [pmapRes, mapDouble, pmap, takeWhile1P, hc, hscan, hr, avroToJson,
      termSemi_ok]

theorem mapInt_neg (rest : List Char) : mapInt ('-' :: rest) = .err := by
  simp [mapInt, pmap, pmapRes, digit1, takeWhile1P]

theorem mapLong_neg (rest : List Char) : mapLong ('-' :: rest) = .err := by
  simp [mapLong, pmap, pmapRes, digit1, takeWhile1P]

theorem mapFloat_neg (rest : List Char) : mapFloat ('-' :: rest) = .err := by
  simp [mapFloat, pmap, pmapRes, takeWhile1P, isFloatChar, Char.isDigit]

theorem mapDouble_neg (rest : List Char) : mapDouble ('-' :: rest) = .err := by
  simp [mapDouble, pmap, pmapRes, takeWhile1P, isFloatChar, Char.isDigit]

theorem parseField_int_neg (rest : List Char) :
    parseField ('i' :: 'n' :: 't' :: ' ' :: 'a' :: 'g' :: 'e' :: ' ' :: '='
      :: ' ' :: '-' :: rest) = .err := by
  have h0 := parseField_eval _ ('-' :: rest) Schema.int mapInt
    (skipLogicalType 'i' _ rfl (by simp) (by simp))
    (mapTypeToSchema_int
      (' ' :: 'a' :: 'g' :: 'e' :: ' ' :: '=' :: ' ' :: '-' :: rest))
    rfl
    (takeWhileP_notfirst isWS '-' rest rfl)
    (parseComment_notslash '-' rest (by simp))
  rw [h0]
  simp [pmapRes, mapInt_neg]

end AvdlRs

namespace AvdlRs

theorem parseField_long_neg (rest : List Char) :
    parseField ('l' :: 'o' :: 'n' :: 'g' :: ' ' :: 'a' :: 'g' :: 'e' :: ' '
      :: '=' :: ' ' :: '-' :: rest) = .err := by
  have h0 := parseField_eval _ ('-' :: rest) Schema.long mapLong
    (skipLogicalType 'l' _ rfl (by simp) (by simp))
    (mapTypeToSchema_long
      (' ' :: 'a' :: 'g' :: 'e' :: ' ' :: '=' :: ' ' :: '-' :: rest))
    rfl
    (takeWhileP_notfirst isWS '-' rest rfl)
    (parseComment_notslash '-' rest (by simp))
  rw [h0]
  simp [pmapRes, mapLong_neg]

theorem parseField_float_neg (rest : List Char) :
    parseField ('f' :: 'l' :: 'o' :: 'a' :: 't' :: ' ' :: 'a' :: 'g' :: 'e'
      :: ' ' :: '=' :: ' ' :: '-' :: rest) = .err := by
  have h0 := parseField_eval _ ('-' :: rest) Schema.float mapFloat
    (skipLogicalType 'f' _ rfl (by simp) (by simp))
    (mapTypeToSchema_float
      (' ' :: 'a' :: 'g' :: 'e' :: ' ' :: '=' :: ' ' :: '-' :: rest))
    rfl
    (takeWhileP_notfirst isWS '-' rest rfl)
    (parseComment_notslash '-' rest (by simp))
  rw [h0]
  simp [pmapRes, mapFloat_neg]

theorem parseField_double_neg (rest : List Char) :
    parseField ('d' :: 'o' :: 'u' :: 'b' :: 'l' :: 'e' :: ' ' :: 'a' :: 'g'
      :: 'e' :: ' ' :: '=' :: ' ' :: '-' :: rest) = .err := by
  have h0 := parseField_eval _ ('-' :: rest) Schema.double mapDouble
    (skipLogicalType 'd' _ rfl (by simp) (by simp))
    (mapTypeToSchema_double
      (' ' :: 'a' :: 'g' :: 'e' :: ' ' :: '=' :: ' ' :: '-' :: rest))
    rfl
    (takeWhileP_notfirst isWS '-' rest rfl)
    (parseComment_notslash '-' rest (by simp))
  rw [h0]
  simp [pmapRes, mapDouble_neg]

theorem parseField_date_neg (rest : List Char) :
    parseField ('d' :: 'a' :: 't' :: 'e' :: ' ' :: 'a' :: 'g' :: 'e' :: ' '
      :: '=' :: ' ' :: '-' :: rest) = .err := by
  have h0 := parseField_eval _ ('-' :: rest) Schema.date mapInt
    (skipLogicalType 'd' _ rfl (by simp) (by simp))
    (mapTypeToSchema_date
      (' ' :: 'a' :: 'g' :: 'e' :: ' ' :: '=' :: ' ' :: '-' :: rest))
    rfl
    (takeWhileP_notfirst isWS '-' rest rfl)
    (parseComment_notslash '-' rest (by simp))
  rw [h0]
  simp [pmapRes, mapInt_neg]

theorem parseField_timeMs_neg (rest : List Char) :
    parseField ('t' :: 'i' :: 'm' :: 'e' :: '_' :: 'm' :: 's' :: ' ' :: 'a'
      :: 'g' :: 'e' :: ' ' :: '=' :: ' ' :: '-' :: rest) = .err := by
  have h0 := parseField_eval _ ('-' :: rest) Schema.timeMillis mapInt
    (skipLogicalType 't' _ rfl (by simp) (by simp))
    (mapTypeToSchema_timeMs
      (' ' :: 'a' :: 'g' :: 'e' :: ' ' :: '=' :: ' ' :: '-' :: rest))
    rfl
    (takeWhileP_notfirst isWS '-' rest rfl)
    (parseComment_notslash '-' rest (by simp))
  rw [h0]
  simp [pmapRes, mapInt_neg]

theorem parseField_timestampMs_neg (rest : List Char) :
    parseField ('t' :: 'i' :: 'm' :: 'e' :: 's' :: 't' :: 'a' :: 'm' :: 'p'
      :: '_' :: 'm' :: 's' :: ' ' :: 'a' :: 'g' :: 'e' :: ' ' :: '=' :: ' '
      :: '-' :: rest) = .err := by
  have h0 := parseField_eval _ ('-' :: rest) Schema.timestampMillis mapLong
    (skipLogicalType 't' _ rfl (by simp) (by simp))
    (mapTypeToSchema_timestampMs
      (' ' :: 'a' :: 'g' :: 'e' :: ' ' :: '=' :: ' ' :: '-' :: rest))
    rfl
    (takeWhileP_notfirst isWS '-' rest rfl)
    (parseComment_notslash '-' rest (by simp))
  rw [h0]
  simp [pmapRes, mapLong_neg]

end AvdlRs

namespace AvdlRs

/-- `unionNewLoop` one-step equation in terms of the schema's kind. -/
theorem unionNewLoop_cons (s : Schema) (rest : List Schema)
    (seen : List SchemaKind) :
    unionNewLoop (s :: rest) seen =
      if s.kind = .union then .error .getNestedUnion
      else if s.kind.isNamed then unionNewLoop rest seen
      else if s.kind ∈ seen then .error .getUnionDuplicate
      else unionNewLoop rest (s.kind :: seen) := by
  cases s <;> simp [unionNewLoop, Schema.kind, SchemaKind.isNamed]

/-- Soundness of the `UnionSchema::new` validation loop: on success no
member is a union, no unnamed kind repeats, and no unnamed kind was
already recorded. -/
theorem unionNewLoop_sound (ss : List Schema) :
    ∀ seen, unionNewLoop ss seen = .ok () →
      (∀ s ∈ ss, s.kind ≠ .union) ∧
      (ss.map Schema.kind).Pairwise
        (fun k1 k2 => k1.isNamed = false → k1 ≠ k2) ∧
      (∀ s ∈ ss, s.kind.isNamed = false → s.kind ∉ seen) := by
  induction ss with
  | nil => intro seen _; simp
  | cons s rest ih =>
    intro seen h
    rw [unionNewLoop_cons] at h
    by_cases h1 : s.kind = SchemaKind.union
    · rw [if_pos h1] at h; exact Except.noConfusion h
    rw [if_neg h1] at h
    by_cases h2 : s.kind.isNamed = true
    · rw [if_pos h2] at h
      obtain ⟨A, B, C⟩ := ih seen h
      refine ⟨?_, ?_, ?_⟩
      · intro t ht
        rcases List.mem_cons.mp ht with rfl | ht2
        · exact h1
        · exact A t ht2
      · refine List.pairwise_cons.mpr ⟨?_, B⟩
        intro k2 _ hun
        rw [h2] at hun
        exact Bool.noConfusion hun
      · intro t ht hun
        rcases List.mem_cons.mp ht with rfl | ht2
        · rw [h2] at hun; exact Bool.noConfusion hun
        · exact C t ht2 hun
    rw [if_neg h2] at h
    by_cases h3 : s.kind ∈ seen
    · rw [if_pos h3] at h; exact Except.noConfusion h
    rw [if_neg h3] at h
    obtain ⟨A, B, C⟩ := ih (s.kind :: seen) h
    have hnamed : s.kind.isNamed = false := by
      cases hk : s.kind.isNamed
      · rfl
      · exact absurd hk h2
    refine ⟨?_, ?_, ?_⟩
    · intro t ht
      rcases List.mem_cons.mp ht with rfl | ht2
      · exact h1
      · exact A t ht2
    · refine List.pairwise_cons.mpr ⟨?_, B⟩
      intro k2 hk2 _
      simp only [List.mem_map] at hk2
      obtain ⟨t, ht, rfl⟩ := hk2
      cases hk : t.kind.isNamed
      · have hmem := C t ht hk
        simp only [List.mem_cons, not_or] at hmem
        exact fun he => hmem.1 he.symm
      · intro he
        rw [← he, hnamed] at hk
        exact Bool.noConfusion hk
    · intro t ht hun
      rcases List.mem_cons.mp ht with rfl | ht2
      · exact h3
      · have hmem := C t ht2 hun
        simp only [List.mem_cons, not_or] at hmem
        exact hmem.2

end AvdlRs

namespace AvdlRs

/-- `take_while` always succeeds, and stops at end of input or at a
character failing the predicate. -/
theorem takeWhileP_shape (f : Char → Bool) (input : List Char) :
    ∃ r v, takeWhileP f input = .ok r v ∧
      (r = [] ∨ ∃ c cs, r = c :: cs ∧ f c = false) := by
  induction input with
  | nil => exact ⟨[], [], rfl, Or.inl rfl⟩
  | cons c cs ih =>
    obtain ⟨r, v, hv, hr⟩ := ih
    by_cases hc : f c = true
    · exact ⟨r, c :: v, by simp [takeWhileP, hc, hv], hr⟩
    · have hc2 : f c = false := by cases h : f c; rfl; exact absurd h hc
      exact ⟨c :: cs, [], by simp [takeWhileP, hc2], Or.inr ⟨c, cs, rfl, hc2⟩⟩

/-- `digit1` either fails or succeeds leaving a remainder that starts with
no digit. -/
theorem digit1_shape (input : List Char) :
    digit1 input = .err ∨ ∃ r v, digit1 input = .ok r v ∧ digit1 r = .err := by
  cases input with
  | nil => exact Or.inl rfl
  | cons c cs =>
    by_cases hc : c.isDigit = true
    · obtain ⟨r, v, hv, hr⟩ := takeWhileP_shape Char.isDigit (c :: cs)
      refine Or.inr ⟨r, v, by simp [digit1, takeWhile1P, hc, hv], ?_⟩
      rcases hr with rfl | ⟨d, ds, rfl, hd⟩
      · rfl
      · simp [digit1, takeWhile1P, hd]
    · have hc2 : c.isDigit = false := by
        cases h : c.isDigit; rfl; exact absurd h hc
      exact Or.inl (by simp [digit1, takeWhile1P, hc2])

/-- The two adjacent `map_usize` parsers of the `decimal(...)` branch can
never both succeed: the first consumes every digit, so the second starts at
a non-digit. -/
theorem pseqUsize_err (input : List Char) :
    pseq mapUsize mapUsize input = .err := by
  rcases digit1_shape input with h | ⟨r, v, hv, hr⟩
  · simp [pseq, mapUsize, pmapRes, h]
  · simp only [pseq, mapUsize, pmapRes, hv, hr]
    cases rustParseUsize v <;> simp [hr]

theorem tagL_no_panic (t input : List Char) : tagL t input ≠ .panic := by
  induction t generalizing input with
  | nil => simp [tagL]
  | cons c cs ih =>
    cases input with
    | nil => simp [tagL]
    | cons x xs =>
      simp only [tagL]
      by_cases hx : x = c
      · simpa [hx] using ih xs
      · simp [hx]


/-- The whole `decimal` alternative of `map_type_to_schema` is dead: it
fails on every input. -/
theorem decimalBranch_err (input : List Char) :
    pmap (ppreceded (tagS "decimal")
        (pdelimited (tagS "(") (pseq mapUsize mapUsize) (tagS ")")))
      (fun ps => Schema.decimal ps.1 ps.2 Schema.bytes) input = .err := by
  simp only [pmap, ppreceded, pdelimited, pterminated, pseq, tagS]
  cases h1 : tagL ['d', 'e', 'c', 'i', 'm', 'a', 'l'] input with
  | ok r1 v1 =>
    cases h2 : tagL ['('] r1 with
    | ok r2 v2 =>
      have h3 := pseqUsize_err r2
      simp only [pseq] at h3
      simp [h1, h2, h3]
    | err => simp [h1, h2]
    | panic => exact absurd h2 (tagL_no_panic _ _)
  | err => simp [h1]
  | panic => exact absurd h1 (tagL_no_panic _ _)

theorem pvalue_ok_inv {α β : Type} {v0 : β} {p : P α} {input r : List Char}
    {v : β} (h : pvalue v0 p input = .ok r v) : v = v0 := by
  unfold pvalue pmap at h
  cases hp : p input with
  | ok r1 w => simp only [hp] at h; cases h; rfl
  | err => simp only [hp] at h; exact PRes.noConfusion h
  | panic => simp only [hp] at h; exact PRes.noConfusion h

theorem palt_ok_inv {α : Type} {p q : P α} {input r : List Char} {v : α}
    (h : palt p q input = .ok r v) :
    p input = .ok r v ∨ q input = .ok r v := by
  unfold palt at h
  cases hp : p input with
  | ok r1 w => simp only [hp] at h; cases h; exact Or.inl rfl
  | err => simp only [hp] at h; exact Or.inr h
  | panic => simp only [hp] at h; exact PRes.noConfusion h

theorem ppreceded_ok_inv {α β : Type} {p : P α} {q : P β}
    {input r : List Char} {v : β} (h : ppreceded p q input = .ok r v) :
    ∃ r1 w, p input = .ok r1 w ∧ q r1 = .ok r v := by
  unfold ppreceded pmap pseq at h
  cases hp : p input with
  | ok r1 w =>
    simp only [hp] at h
    cases hq : q r1 with
    | ok r2 w2 => simp only [hq] at h; cases h; exact ⟨r1, w, rfl, hq⟩
    | err => simp only [hq] at h; exact PRes.noConfusion h
    | panic => simp only [hq] at h; exact PRes.noConfusion h
  | err => simp only [hp] at h; exact PRes.noConfusion h
  | panic => simp only [hp] at h; exact PRes.noConfusion h

theorem pterminated_ok_inv {α β : Type} {p : P α} {q : P β}
    {input r : List Char} {v : α} (h : pterminated p q input = .ok r v) :
    ∃ r1 w, p input = .ok r1 v ∧ q r1 = .ok r w := by
  unfold pterminated pmap pseq at h
  cases hp : p input with
  | ok r1 w =>
    simp only [hp] at h
    cases hq : q r1 with
    | ok r2 w2 => simp only [hq] at h; cases h; exact ⟨r1, w2, rfl, hq⟩
    | err => simp only [hq] at h; exact PRes.noConfusion h
    | panic => simp only [hq] at h; exact PRes.noConfusion h
  | err => simp only [hp] at h; exact PRes.noConfusion h
  | panic => simp only [hp] at h; exact PRes.noConfusion h

theorem pdelimited_ok_inv {α β γ : Type} {p : P α} {q : P β} {r : P γ}
    {input rr : List Char} {v : β} (h : pdelimited p q r input = .ok rr v) :
    ∃ r1 r2 w1, p input = .ok r1 w1 ∧ q r1 = .ok r2 v := by
  unfold pdelimited at h
  obtain ⟨r1, w, hpre, _⟩ := pterminated_ok_inv h
  obtain ⟨ra, wa, hp, hq⟩ := ppreceded_ok_inv hpre
  exact ⟨ra, r1, wa, hp, hq⟩

end AvdlRs

namespace AvdlRs

theorem pmap_ok_inv {α β : Type} {p : P α} {f : α → β} {input r : List Char}
    {v : β} (h : pmap p f input = .ok r v) :
    ∃ r1 w, p input = .ok r1 w ∧ v = f w := by
  unfold pmap at h
  cases hp : p input with
  | ok r1 w => simp only [hp] at h; cases h; exact ⟨_, _, rfl, rfl⟩
  | err => simp only [hp] at h; exact PRes.noConfusion h
  | panic => simp only [hp] at h; exact PRes.noConfusion h

/-- `map_type_to_schema` can never produce a `Decimal` node: its `decimal`
alternative is dead (see `decimalBranch_err`), and every other alternative
produces a node of a different kind. -/
theorem mapTypeToSchemaF_no_decimal (fuel : Nat) (input rest : List Char)
    (sch : Schema) (h : mapTypeToSchemaF fuel input = .ok rest sch) :
    sch.kind ≠ SchemaKind.decimal := by
  cases fuel with
  | zero => exact PRes.noConfusion h
  | succ k =>
    simp only [mapTypeToSchemaF, paltL] at h
    rcases palt_ok_inv h with h | h
    · obtain ⟨r1, w, _, hd⟩ := ppreceded_ok_inv h
      obtain ⟨ra, rb, wa, _, hq⟩ := pdelimited_ok_inv hd
      obtain ⟨rc, wc, _, rfl⟩ := pmap_ok_inv hq
      simp [Schema.kind]
    rcases palt_ok_inv h with h | h
    · cases hW : ppreceded (tagS "union")
          (pdelimited (spaceDelimited (tagS "\x7b"))
            (separatedList1 (spaceDelimited (tagS ",")) (mapTypeToSchemaF k))
            (spaceDelimited (tagS "\x7d"))) input with
      | ok r ss =>
        simp only [hW] at h
        cases hU : unionSchemaNew ss with
        | ok variants => simp only [hU] at h; cases h; simp [Schema.kind]
        | error e => simp only [hU] at h; exact PRes.noConfusion h
      | err => simp only [hW] at h; exact PRes.noConfusion h
      | panic => simp only [hW] at h; exact PRes.noConfusion h
    rcases palt_ok_inv h with h | h
    · rw [pvalue_ok_inv h]; simp [Schema.kind]
    rcases palt_ok_inv h with h | h
    · rw [pvalue_ok_inv h]; simp [Schema.kind]
    rcases palt_ok_inv h with h | h
    · rw [pvalue_ok_inv h]; simp [Schema.kind]
    rcases palt_ok_inv h with h | h
    · rw [pvalue_ok_inv h]; simp [Schema.kind]
    rcases palt_ok_inv h with h | h
    · rw [pvalue_ok_inv h]; simp [Schema.kind]
    rcases palt_ok_inv h with h | h
    · rw [pvalue_ok_inv h]; simp [Schema.kind]
    rcases palt_ok_inv h with h | h
    · rw [pvalue_ok_inv h]; simp [Schema.kind]
    rcases palt_ok_inv h with h | h
    · rw [pvalue_ok_inv h]; simp [Schema.kind]
    rcases palt_ok_inv h with h | h
    · rw [pvalue_ok_inv h]; simp [Schema.kind]
    rcases palt_ok_inv h with h | h
    · rw [pvalue_ok_inv h]; simp [Schema.kind]
    rcases palt_ok_inv h with h | h
    · rw [pvalue_ok_inv h]; simp [Schema.kind]
    rcases palt_ok_inv h with h | h
    · rw [pvalue_ok_inv h]; simp [Schema.kind]
    rcases palt_ok_inv h with h | h
    · rw [decimalBranch_err] at h; exact PRes.noConfusion h
    · exact PRes.noConfusion h

/-- The public resolver never yields a `Decimal` schema. -/
theorem mapTypeToSchema_no_decimal (input rest : List Char) (sch : Schema)
    (h : mapTypeToSchema input = .ok rest sch) :
    sch.kind ≠ SchemaKind.decimal :=
  mapTypeToSchemaF_no_decimal _ input rest sch h

end AvdlRs

namespace AvdlRs

set_option maxRecDepth 100000 in
/-- C1: for a `float` (resp. `double`) field, a default literal that is
syntactically valid over `{digit, '.', 'e'}` but whose parsed magnitude
overflows the 32-bit (resp. 64-bit) finite range makes the field parse
fail, while an in-range literal succeeds with the correctly rounded finite
JSON number — for both widths; in particular `float age = 3.50282347e40;`
and `double age = 1.8e308;` fail, `float age = 3.40282347e38;` succeeds
with the 32-bit float maximum (`16777215 * 2^104`) as its default, and
`double age = 1.7976931348623157e308;` succeeds with the 64-bit float
maximum (`9007199254740991 * 2^971`). -/
theorem claim_C1_float_double_range :
    (∀ (c : Char) (cs : List Char), isFloatChar c = true →
      cs.all isFloatChar = true → rustParseF32 (c :: cs) = some none →
      parseField ('f' :: 'l' :: 'o' :: 'a' :: 't' :: ' ' :: 'a' :: 'g' :: 'e'
        :: ' ' :: '=' :: ' ' :: (c :: (cs ++ [';']))) = .err) ∧
    (∀ (c : Char) (cs : List Char) (d : Dy), isFloatChar c = true →
      cs.all isFloatChar = true → rustParseF32 (c :: cs) = some (some d) →
      parseField ('f' :: 'l' :: 'o' :: 'a' :: 't' :: ' ' :: 'a' :: 'g' :: 'e'
        :: ' ' :: '=' :: ' ' :: (c :: (cs ++ [';']))) =
        .ok [] (.float, none, none, "age", some (.num (.fl d)))) ∧
    (∀ (c : Char) (cs : List Char), isFloatChar c = true →
      cs.all isFloatChar = true → rustParseF64 (c :: cs) = some none →
      parseField ('d' :: 'o' :: 'u' :: 'b' :: 'l' :: 'e' :: ' ' :: 'a' :: 'g'
        :: 'e' :: ' ' :: '=' :: ' ' :: (c :: (cs ++ [';']))) = .err) ∧
    (∀ (c : Char) (cs : List Char) (d : Dy), isFloatChar c = true →
      cs.all isFloatChar = true → rustParseF64 (c :: cs) = some (some d) →
      parseField ('d' :: 'o' :: 'u' :: 'b' :: 'l' :: 'e' :: ' ' :: 'a' :: 'g'
        :: 'e' :: ' ' :: '=' :: ' ' :: (c :: (cs ++ [';']))) =
        .ok [] (.double, none, none, "age", some (.num (.fl d)))) ∧
    parseField "float age = 3.50282347e40;".data = .err ∧
    parseField "float age = 3.40282347e38;".data =
      .ok [] (.float, none, none, "age", some (.num (.fl ⟨16777215, 104⟩))) ∧
    parseField "double age = 1.8e308;".data = .err ∧
    parseField "double age = 1.7976931348623157e308;".data =
      .ok [] (.double, none, none, "age",
              some (.num (.fl ⟨9007199254740991, 971⟩))) ∧
    (16777215 : ℕ) * 2 ^ 104 = 340282346638528859811704183484516925440 ∧
    Dy.val ⟨16777215, 104⟩ = ((340282346638528859811704183484516925440 : ℕ) : ℚ) := by
  refine ⟨?_, ?_, ?_, ?_, by rfl, by rfl, by rfl, by rfl, by norm_num, ?_⟩
  · intro c cs hc hall hf
    rw [parseField_floatLit c cs hc hall, hf]
  · intro c cs d hc hall hf
    rw [parseField_floatLit c cs hc hall, hf]
  · intro c cs hc hall hf
    rw [parseField_doubleLit c cs hc hall, hf]
  · intro c cs d hc hall hf
    rw [parseField_doubleLit c cs hc hall, hf]
  · rw [Dy.val]
    norm_num

set_option maxRecDepth 100000 in
/-- Witness for C1: the float-overflow clause applied to the literal
`1e39`, the double-overflow clause applied to `1e309`, and the double
in-range clause applied to `1.7976931348623157e308` (which rounds to the
64-bit float maximum). -/
theorem claim_C1_witness :
    parseField ('f' :: 'l' :: 'o' :: 'a' :: 't' :: ' ' :: 'a' :: 'g' :: 'e'
      :: ' ' :: '=' :: ' ' :: ('1' :: ("e39".data ++ [';']))) = .err ∧
    parseField ('d' :: 'o' :: 'u' :: 'b' :: 'l' :: 'e' :: ' ' :: 'a' :: 'g'
      :: 'e' :: ' ' :: '=' :: ' ' :: ('1' :: ("e309".data ++ [';']))) =
      .err ∧
    parseField ('d' :: 'o' :: 'u' :: 'b' :: 'l' :: 'e' :: ' ' :: 'a' :: 'g'
      :: 'e' :: ' ' :: '=' :: ' '
      :: ('1' :: (".7976931348623157e308".data ++ [';']))) =
      .ok [] (.double, none, none, "age",
              some (.num (.fl ⟨9007199254740991, 971⟩))) :=
  ⟨claim_C1_float_double_range.1 '1' "e39".data (by decide) (by decide)
     (by decide),
   claim_C1_float_double_range.2.2.1 '1' "e309".data (by decide) (by decide)
     (by decide),
   claim_C1_float_double_range.2.2.2.1 '1' ".7976931348623157e308".data
     ⟨9007199254740991, 971⟩ (by decide) (by decide) (by decide)⟩

/-- C2: a union field's default literal is parsed with the first variant's
default grammar (`parse_based_on_schema` on a union defers to its first
variant); `union { null, string } item_id = null;` yields default `null`
and `union { int, string } item = 1;` yields the integer default `1`. -/
theorem claim_C2_union_first_variant :
    (∀ (v : Schema) (vs : List Schema),
      parseBasedOnSchema (Schema.union (v :: vs)) = parseBasedOnSchema v) ∧
    parseUnion "union \x7b null, string \x7d item_id = null;".data =
      .ok [] (.union [.null, .string], none, none, "item_id", some .null) ∧
    parseUnion "union \x7b int, string \x7d item = 1;".data =
      .ok [] (.union [.int, .string], none, none, "item",
              some (.num (.int 1))) := by
  refine ⟨?_, by rfl, by rfl⟩
  intro v vs
  simp [parseBasedOnSchema]

end AvdlRs

namespace AvdlRs

/-- C3: two schemas are equal exactly when their canonical JSON forms are
textually equal (canonicalization strips docs, aliases and defaults): a
record differing only in doc/aliases/default annotations equals its bare
form, while swapping field order or changing a field's type breaks
equality. -/
theorem claim_C3_canonical_equality :
    (∀ a b : Schema, eqSchema a b = true ↔ canonicalForm a = canonicalForm b) ∧
    eqSchema recAnnotated recBare = true ∧
    eqSchema recXY recYX = false ∧
    eqSchema recBare recXStr = false := by
  refine ⟨?_, by rfl, by rfl, by rfl⟩
  intro a b
  simp [eqSchema]

/-- C4: parsing `record Employee { string name; boolean active = true;
long salary; }` and serializing the result yields a JSON record document
with type `record`, name `Employee`, and the fields `name`, `active`
(default `true`) and `salary` in declaration order. -/
theorem claim_C4_record_roundtrip :
    parseRecord employeeSource.data = .ok [] employeeSchema ∧
    jsonOf employeeSchema =
      .obj [("type", .str "record"), ("name", .str "Employee"),
        ("fields", .arr
          [.obj [("name", .str "name"), ("type", .str "string")],
           .obj [("name", .str "active"), ("type", .str "boolean"),
                 ("default", .bool true)],
           .obj [("name", .str "salary"), ("type", .str "long")]])] :=
  ⟨rfl, rfl⟩

/-- C5 counterexample: for a map field the two annotation orders are NOT
interchangeable — `@aliases` before `@order` fails to parse while `@order`
before `@aliases` succeeds, refuting the claim for the map field kind. -/
theorem claim_C5_counterexample :
    parseMap "map<string> @aliases([\"item\"]) @order(\"ignore\") stock;".data
      = .err ∧
    parseMap "map<string> @order(\"ignore\") @aliases([\"item\"]) stock;".data
      = .ok [] (.mapS .string, some .ignore, some ["item"], "stock", none) :=
  ⟨rfl, rfl⟩

/-- C5 (amended): the generic and union field forms and the record-level
`@aliases`/`@namespace` pair accept both annotation orders with identical
results, but the array and map field forms accept only `@order` before
`@aliases` — the reverse order is a parse failure. -/
theorem claim_C5_annotation_orders :
    parseField
        "string @order(\"ignore\") @aliases([\"nick\"]) name = \"jon\";".data =
      .ok [] (.string, some .ignore, some ["nick"], "name",
              some (.str "jon")) ∧
    parseField
        "string @aliases([\"nick\"]) @order(\"ignore\") name = \"jon\";".data =
      .ok [] (.string, some .ignore, some ["nick"], "name",
              some (.str "jon")) ∧
    parseUnion
        "union \x7b null, string \x7d @order(\"ignore\") @aliases([\"i\"]) item = null;".data =
      .ok [] (.union [.null, .string], some .ignore, some ["i"], "item",
              some .null) ∧
    parseUnion
        "union \x7b null, string \x7d @aliases([\"i\"]) @order(\"ignore\") item = null;".data =
      .ok [] (.union [.null, .string], some .ignore, some ["i"], "item",
              some .null) ∧
    parseRecord
        "@namespace(\"org.x\")\n@aliases([\"Old\"])\nrecord R \x7b string name; \x7d".data =
      .ok [] (.record ⟨"R", some "org.x"⟩ (some ["Old"]) none
        [.mk "name" none none .string .ascending none 0]) ∧
    parseRecord
        "@aliases([\"Old\"])\n@namespace(\"org.x\")\nrecord R \x7b string name; \x7d".data =
      .ok [] (.record ⟨"R", some "org.x"⟩ (some ["Old"]) none
        [.mk "name" none none .string .ascending none 0]) ∧
    parseArray "array<string> @order(\"ignore\") @aliases([\"s\"]) stock;".data =
      .ok [] (.array .string, some .ignore, some ["s"], "stock", none) ∧
    parseArray "array<string> @aliases([\"s\"]) @order(\"ignore\") stock;".data =
      .err :=
  ⟨rfl, rfl, rfl, rfl, rfl, rfl, rfl, rfl⟩

/-- C6: contrary to the stated propagation policy, the parser can abort the
process — an `@logicalType` value outside the three recognized strings hits
`todo!()`, and a `duration`-typed field aborts when its (unimplemented)
default parser is selected. -/
theorem claim_C6_panic_paths :
    parseField "@logicalType(\"hello\") long x;".data = .panic ∧
    parseField "@logicalType(\"duration\") long ts;".data = .panic ∧
    parseField "string name = \"jon\"".data = .err :=
  ⟨rfl, rfl, rfl⟩

end AvdlRs

namespace AvdlRs

/-- C7 counterexample: `UnionSchema::new` accepts the empty variant list —
a `UnionSchema` with zero variants is successfully constructed, refuting
the "at least one variant" part of the invariant. -/
theorem claim_C7_counterexample :
    unionSchemaNew ([] : List Schema) = .ok [] ∧
    ([] : List Schema).length = 0 :=
  ⟨rfl, rfl⟩

/-- C7 (amended): every successfully constructed `UnionSchema` keeps its
variant list, contains no direct union member and no two unnamed variants
of the same kind, and `UnionSchema::new` errors on a nested union or a
repeated unnamed kind — but it does not require the list to be nonempty. -/
theorem claim_C7_union_invariants :
    (∀ (ss out : List Schema), unionSchemaNew ss = .ok out →
      out = ss ∧ (∀ s ∈ ss, s.kind ≠ .union) ∧
      (ss.map Schema.kind).Pairwise
        (fun k1 k2 => k1.isNamed = false → k1 ≠ k2)) ∧
    unionSchemaNew [Schema.union [Schema.null]] = .error .getNestedUnion ∧
    unionSchemaNew [Schema.int, Schema.int] = .error .getUnionDuplicate := by
  refine ⟨?_, by rfl, by rfl⟩
  intro ss out h
  unfold unionSchemaNew at h
  cases hl : unionNewLoop ss [] with
  | ok u =>
    cases u
    rw [hl] at h
    cases h
    obtain ⟨A, B, _⟩ := unionNewLoop_sound ss [] hl
    exact ⟨rfl, A, B⟩
  | error e => rw [hl] at h; exact Except.noConfusion h

/-- Witness for C7: the invariants instantiated at `[int, string]`. -/
theorem claim_C7_witness :
    ∀ s ∈ [Schema.int, Schema.string], s.kind ≠ SchemaKind.union :=
  (claim_C7_union_invariants.1 [Schema.int, Schema.string]
    [Schema.int, Schema.string] rfl).2.1

/-- C8: the `decimal(precision, scale)` type expression never parses — the
two integer arguments are parsed by adjacent `map_usize` parsers with no
separator, so the second always fails; `decimal(4, 2)` is rejected and the
resolver can never produce a `Decimal` node. -/
theorem claim_C8_decimal_dead :
    mapTypeToSchema "decimal(4, 2)".data = .err ∧
    mapTypeToSchema "decimal(4,2)".data = .err ∧
    mapTypeToSchema "decimal(42)".data = .err ∧
    (∀ input : List Char, pseq mapUsize mapUsize input = .err) ∧
    (∀ (input rest : List Char) (sch : Schema),
      mapTypeToSchema input = .ok rest sch →
      sch.kind ≠ SchemaKind.decimal) :=
  ⟨rfl, rfl, rfl, pseqUsize_err, mapTypeToSchema_no_decimal⟩

/-- Witness for C8: the no-decimal clause at the input `int`. -/
theorem claim_C8_witness : Schema.int.kind ≠ SchemaKind.decimal :=
  claim_C8_decimal_dead.2.2.2.2 "int".data [] Schema.int rfl

/-- C9 counterexample: the `@aliases` annotation on a `fixed` declaration
IS attached to the produced node — parsing
`fixed @aliases(["md1"]) MD5(16);` yields a `Fixed` whose aliases field is
`some ["md1"]`, not `none`, refuting "accepted but not attached". -/
theorem claim_C9_counterexample :
    parseFixed "fixed @aliases([\"md1\"]) MD5(16);".data =
      .ok [] (.fixed ⟨"MD5", none⟩ (some ["md1"]) none 16) ∧
    (some ["md1"] : Option (List String)) ≠ none :=
  ⟨rfl, by simp⟩

/-- C9 (amended): `fixed [@order][@aliases] Name(size);` with an optional
preceding doc comment parses to a `Fixed` node with the given name and
size, the doc captured verbatim, `@order` accepted but discarded, and
`@aliases` accepted and attached as the node's aliases. -/
theorem claim_C9_fixed :
    parseFixed "fixed MD5(16);".data =
      .ok [] (.fixed ⟨"MD5", none⟩ none none 16) ∧
    parseFixed "/** my hash */ \nfixed MD5(16);".data =
      .ok [] (.fixed ⟨"MD5", none⟩ none (some " my hash ") 16) ∧
    parseFixed "fixed @order(\"ignore\") MD5(16);".data =
      .ok [] (.fixed ⟨"MD5", none⟩ none none 16) ∧
    parseFixed "fixed @aliases([\"md1\"]) MD5(16);".data =
      .ok [] (.fixed ⟨"MD5", none⟩ (some ["md1"]) none 16) :=
  ⟨rfl, rfl, rfl, rfl⟩

/-- C10: every numeric default grammar accepts only unsigned literals — a
literal starting with `-` fails the grammar (digits-only for
int/long/date/time/timestamp kinds, `{digit, '.', 'e'}` for float/double),
each numeric schema kind dispatches to one of these grammars, and a field
of any such kind with a negative default fails to parse. -/
theorem claim_C10_negative_defaults :
    (∀ rest, mapInt ('-' :: rest) = .err) ∧
    (∀ rest, mapLong ('-' :: rest) = .err) ∧
    (∀ rest, mapFloat ('-' :: rest) = .err) ∧
    (∀ rest, mapDouble ('-' :: rest) = .err) ∧
    parseBasedOnSchema .int = .mk mapInt ∧
    parseBasedOnSchema .long = .mk mapLong ∧
    parseBasedOnSchema .date = .mk mapInt ∧
    parseBasedOnSchema .timeMillis = .mk mapInt ∧
    parseBasedOnSchema .timestampMillis = .mk mapLong ∧
    parseBasedOnSchema .timeMicros = .mk mapLong ∧
    parseBasedOnSchema .timestampMicros = .mk mapLong ∧
    parseBasedOnSchema .float = .mk mapFloat ∧
    parseBasedOnSchema .double = .mk mapDouble ∧
    (∀ rest, parseField ('i' :: 'n' :: 't' :: ' ' :: 'a' :: 'g' :: 'e' :: ' '
      :: '=' :: ' ' :: '-' :: rest) = .err) ∧
    (∀ rest, parseField ('l' :: 'o' :: 'n' :: 'g' :: ' ' :: 'a' :: 'g' :: 'e'
      :: ' ' :: '=' :: ' ' :: '-' :: rest) = .err) ∧
    (∀ rest, parseField ('f' :: 'l' :: 'o' :: 'a' :: 't' :: ' ' :: 'a' :: 'g'
      :: 'e' :: ' ' :: '=' :: ' ' :: '-' :: rest) = .err) ∧
    (∀ rest, parseField ('d' :: 'o' :: 'u' :: 'b' :: 'l' :: 'e' :: ' ' :: 'a'
      :: 'g' :: 'e' :: ' ' :: '=' :: ' ' :: '-' :: rest) = .err) ∧
    (∀ rest, parseField ('d' :: 'a' :: 't' :: 'e' :: ' ' :: 'a' :: 'g' :: 'e'
      :: ' ' :: '=' :: ' ' :: '-' :: rest) = .err) ∧
    (∀ rest, parseField ('t' :: 'i' :: 'm' :: 'e' :: '_' :: 'm' :: 's' :: ' '
      :: 'a' :: 'g' :: 'e' :: ' ' :: '=' :: ' ' :: '-' :: rest) = .err) ∧
    (∀ rest, parseField ('t' :: 'i' :: 'm' :: 'e' :: 's' :: 't' :: 'a' :: 'm'
      :: 'p' :: '_' :: 'm' :: 's' :: ' ' :: 'a' :: 'g' :: 'e' :: ' ' :: '='
      :: ' ' :: '-' :: rest) = .err) :=
  ⟨mapInt_neg, mapLong_neg, mapFloat_neg, mapDouble_neg,
   rfl, rfl, rfl, rfl, rfl, rfl, rfl, rfl, rfl,
   parseField_int_neg, parseField_long_neg, parseField_float_neg,
   parseField_double_neg, parseField_date_neg, parseField_timeMs_neg,
   parseField_timestampMs_neg⟩

end AvdlRs
